import Mathlib

/-!
Verification development for the per-tick trading engine of the
IMC-prosperity-2025 strategy variants.

The embedding below follows two source files:
  * src/Round_2/Trader_2/Trader_2.py  (namespace TraderR2) — the full
    per-tick pipeline: volatility, regime detection, drawdown monitor,
    fair value, order taking, spread and market making, and basket
    arbitrage;
  * src/Round_1/Trader_16/Trader_16.py (namespace TraderR1) — the full
    per-tick pipeline of the Round-1 variant: volatility, regime
    detection, drawdown monitor, fair value, order taking, spread and
    market making, and the run loop's book guards.

Modelling conventions:
  * Python floats are modelled as exact rationals (ℚ); book prices,
    quantities and positions are integers (ℤ) as in the simulator.
  * math.floor / math.ceil are Int.floor / Int.ceil; Python int(x)
    truncates toward zero (ratTrunc below); Python // is Int.fdiv.
  * statistics.stdev is modelled with an exact rational square root
    (ratSqrt below); it agrees with the real standard deviation whenever
    the sample variance is the square of a rational, which holds on every
    concrete input evaluated in this file (the universally quantified
    theorems below do not depend on the value of the square root).
  * random.random() is modelled by an explicit draw argument r : ℚ
    with intended range 0 ≤ r < 1.
  * math.log is modelled by an explicit function parameter lnModel;
    every concrete run in this file only evaluates it at argument 1
    (position ratio 0), where math.log is exactly 0.
  * Python dicts of price → quantity are association lists; iteration
    over sorted(keys) is iteration over an insertion sort by key
    (dict keys are unique).
-/

namespace ProsperitySpec

/-- An order as in datamodel.Order: instrument symbol, integer price and a
signed quantity (positive = buy, negative = sell). -/
structure Order where
  symbol : String
  price : ℤ
  quantity : ℤ
deriving DecidableEq, Repr

/-- One side of an order-depth snapshot: association list price → quantity.
Sell-side quantities are negative in the simulator's encoding, buy-side
quantities positive. -/
structure Depth where
  buys : List (ℤ × ℤ)
  sells : List (ℤ × ℤ)
deriving DecidableEq, Repr

/-- Association-list lookup (dict access d.get(k)). -/
def lookupA {κ α : Type} [DecidableEq κ] : List (κ × α) → κ → Option α
  | [], _ => none
  | (k, v) :: rest, key => if k = key then some v else lookupA rest key

/-- Python l[-n:] — the last n elements (whole list when shorter). -/
def takeLast {α : Type} (n : ℕ) (l : List α) : List α :=
  l.drop (l.length - n)

/-- Maximum of a list with a default for the empty list (callers guard
non-emptiness as the Python code does before calling max). -/
def listMaxD {α : Type} [LinearOrder α] (l : List α) (dflt : α) : α :=
  match l with
  | [] => dflt
  | x :: r => r.foldl max x

/-- Minimum of a list with a default for the empty list. -/
def listMinD {α : Type} [LinearOrder α] (l : List α) (dflt : α) : α :=
  match l with
  | [] => dflt
  | x :: r => r.foldl min x

/-- Best bid: max(buy_orders.keys()). -/
def maxKey (l : List (ℤ × ℤ)) : ℤ := listMaxD (l.map Prod.fst) 0

/-- Best ask: min(sell_orders.keys()). -/
def minKey (l : List (ℤ × ℤ)) : ℤ := listMinD (l.map Prod.fst) 0

/-- Insert a (price, qty) pair into a list sorted ascending by price. -/
def insertAsc (p : ℤ × ℤ) : List (ℤ × ℤ) → List (ℤ × ℤ)
  | [] => [p]
  | q :: rest => if p.1 ≤ q.1 then p :: q :: rest else q :: insertAsc p rest

/-- Iteration order of "for price in sorted(order_dict.keys())" paired with
the dict values (keys of a dict are unique). -/
def sortPairsAsc : List (ℤ × ℤ) → List (ℤ × ℤ)
  | [] => []
  | p :: rest => insertAsc p (sortPairsAsc rest)

/-- Iteration order of "for price in sorted(keys, reverse=True)". -/
def sortPairsDesc (l : List (ℤ × ℤ)) : List (ℤ × ℤ) :=
  (sortPairsAsc l).reverse

/-- Python int(x): truncation toward zero. -/
def ratTrunc (q : ℚ) : ℤ := if 0 ≤ q then ⌊q⌋ else ⌈q⌉

/-- Python a // b (floor division); none models the ZeroDivisionError
raised when b = 0. -/
def pyFloorDiv (a b : ℤ) : Option ℤ :=
  if b = 0 then none else some (Int.fdiv a b)

/-- Sum of the positive (buy) quantities of an order list. -/
def sumPosQty (orders : List Order) : ℤ :=
  (orders.map (fun o => max o.quantity 0)).sum

/-- Sum of the absolute values of the negative (sell) quantities of an
order list. -/
def sumNegAbs (orders : List Order) : ℤ :=
  (orders.map (fun o => max (-o.quantity) 0)).sum

/-- Mean of a sample (callers guard non-emptiness). -/
def sampleMean (l : List ℚ) : ℚ := l.sum / l.length

/-- Integer square root by bounded search: the greatest k ≤ n + 1 with
k · k ≤ n, which is the floor of the real square root of n. -/
def natSqrtB (n : ℕ) : ℕ :=
  (List.range (n + 2)).foldl (fun acc k => if k * k ≤ n then max acc k else acc) 0

/-- Exact rational square root (numerator and denominator square roots, as
in Mathlib's Rat.sqrt but kernel-reducible): it agrees with the real
square root whenever the argument is the square of a rational, which holds
for every concrete evaluation in this file. -/
def ratSqrt (q : ℚ) : ℚ := mkRat (natSqrtB q.num.toNat) (natSqrtB q.den)

/-- statistics.stdev: sample standard deviation with the n−1 denominator.
The square root is the exact rational square root ratSqrt; every concrete
evaluation in this file has a perfect-square variance, where ratSqrt
coincides with the real square root, and no universally quantified theorem
below depends on the value of the square root. -/
def sampleStdev (l : List ℚ) : ℚ :=
  ratSqrt ((l.map (fun x => (x - sampleMean l) ^ 2)).sum / ((l.length : ℚ) - 1))

/-- The fractional price changes [abs(h[i]/h[i-1] - 1) for i in 1..len-1]. -/
def priceChanges : List ℚ → List ℚ
  | x :: y :: rest => |y / x - 1| :: priceChanges (y :: rest)
  | _ => []

/-- Per-product strategy parameters (PRODUCT_PARAMS / DEFAULT_PARAMS rows). -/
structure Params where
  alpha : ℚ
  spreadFactor : ℚ
  trendFactor : ℚ
  meanReversion : Bool
  volatilityScale : ℚ
  minSpread : ℚ
  takeWidth : ℚ
  aggressiveEdge : ℚ
  riskAversion : ℚ
  maxPositionScale : ℚ
deriving DecidableEq, Repr

namespace TraderR2

/-- POSITION_LIMITS of Round_2/Trader_2 (with the DEFAULT fallback of
get_position_limit). -/
def positionLimit (product : String) : ℤ :=
  if product = "PICNIC_BASKET1" then 60
  else if product = "PICNIC_BASKET2" then 100
  else if product = "CROISSANT" then 250
  else if product = "JAM" then 350
  else if product = "DJEMBE" then 60
  else 20

/-- DEFAULT_PARAMS of Round_2/Trader_2. -/
def defaultParams : Params :=
  ⟨0.35, 0.6, 0.6, true, 1.2, 1, 2, 0.6, 0.4, 1.0⟩

/-- PRODUCT_PARAMS of Round_2/Trader_2, with the get_product_params
fallback to DEFAULT_PARAMS. -/
def getProductParams (product : String) : Params :=
  if product = "PICNIC_BASKET1" then ⟨0.3, 0.5, 0.5, true, 1.3, 2, 2, 0.5, 0.3, 1.0⟩
  else if product = "PICNIC_BASKET2" then ⟨0.3, 0.5, 0.5, true, 1.3, 2, 2, 0.5, 0.3, 1.0⟩
  else if product = "DJEMBE" then ⟨0.4, 0.7, 0.8, false, 1.6, 2, 3, 0.7, 0.5, 0.9⟩
  else if product = "CROISSANT" then ⟨0.35, 0.6, 0.6, true, 1.3, 1, 2, 0.6, 0.4, 1.0⟩
  else if product = "JAM" then ⟨0.35, 0.6, 0.7, true, 1.4, 1, 2, 0.6, 0.4, 1.0⟩
  else defaultParams

/-- BASKET_COMPOSITION of Round_2/Trader_2 (note DJEMBE ↦ 0 in
PICNIC_BASKET2). -/
def basketComposition (basket : String) : List (String × ℤ) :=
  if basket = "PICNIC_BASKET1" then [("CROISSANT", 6), ("JAM", 3), ("DJEMBE", 1)]
  else if basket = "PICNIC_BASKET2" then [("CROISSANT", 4), ("JAM", 2), ("DJEMBE", 0)]
  else []

/-- The per-product slice of trader_data. Every dict access in the source
is keyed by the current product, so the persisted state splits into
independent per-product records; absent keys are modelled by Option or by
the source's own defaults (market_trend defaults to 0, market_regime to
"normal", in_drawdown to False, drawdown_counter to 0, current_position
to 0). -/
structure ProdState where
  priceHistory : List ℚ
  volatility : Option ℚ
  emaPrice : Option ℚ
  lastMid : Option ℚ
  marketTrend : ℚ
  regime : String
  pnlHistory : List ℚ
  positionHistory : List ℤ
  inDrawdown : Bool
  drawdownCounter : ℤ
  fairValue : Option ℚ
  currentPosition : ℤ
deriving DecidableEq, Repr

/-- The state of a product never seen before (all structures empty, the
source's defaults for scalar fields). -/
def ProdState.init : ProdState :=
  ⟨[], none, none, none, 0, "normal", [], [], false, 0, none, 0⟩

/-- calculate_volatility of Round_2/Trader_2 (history_len = 20): append the
mid price, truncate the window, and update the smoothed volatility
(0.8 old + 0.2 sample); default 0.01 when fewer than 3 samples. -/
def calculateVolatility (s : ProdState) (mid : ℚ) : ProdState × ℚ :=
  let hist0 := s.priceHistory ++ [mid]
  let hist := if 20 < hist0.length then takeLast 20 hist0 else hist0
  let s1 : ProdState := { s with priceHistory := hist }
  if 3 ≤ hist.length ∧ priceChanges hist ≠ [] then
    let changes := priceChanges hist
    let vol := if 1 < changes.length then sampleStdev changes else changes.headI
    let oldVol := s1.volatility.getD vol
    let newVol := 0.8 * oldVol + 0.2 * vol
    ({ s1 with volatility := some newVol }, newVol)
  else
    match s1.volatility with
    | none => ({ s1 with volatility := some 0.01 }, 0.01)
    | some v => (s1, v)

/-- The consecutive_up / consecutive_down loop of detect_market_regime:
an up-move increments up and resets down, a down-move increments down and
resets up, an equal pair leaves both counters unchanged. -/
def consecMovesAux : ℚ → List ℚ → ℤ × ℤ → ℤ × ℤ
  | _, [], acc => acc
  | prev, cur :: rest, (u, d) =>
      if prev < cur then consecMovesAux cur rest (u + 1, 0)
      else if cur < prev then consecMovesAux cur rest (0, d + 1)
      else consecMovesAux cur rest (u, d)

/-- Consecutive same-direction move counters over a price list. -/
def consecMoves : List ℚ → ℤ × ℤ
  | [] => (0, 0)
  | p :: rest => consecMovesAux p rest (0, 0)

/-- detect_market_regime of Round_2/Trader_2: fewer than 5 samples means
"normal"; otherwise classify trending / volatile / mean_reverting / normal
from the last 8 prices and apply the switch conditions of lines 200-210
before overwriting the stored regime. -/
def detectMarketRegime (s : ProdState) (currentPrice : ℚ) : String × ProdState :=
  if s.priceHistory.length < 5 then
    ("normal", { s with regime := "normal" })
  else
    let prices := takeLast 8 s.priceHistory
    let cucd := consecMoves prices
    let cu := cucd.1
    let cd := cucd.2
    let recentVol := s.volatility.getD 0.01
    let avgPrice := prices.sum / (prices.length : ℚ)
    let priceDev := |currentPrice - avgPrice| / avgPrice
    let trendStrength :=
      |prices.getLastD 0 - prices.headI| /
        (listMaxD prices 0 - listMinD prices 0 + 0.001)
    let regime :=
      if (3 ≤ cu ∨ 3 ≤ cd) ∧ 0.5 < trendStrength then "trending"
      else if 0.025 < recentVol then "volatile"
      else if 0.015 < priceDev then "mean_reverting"
      else "normal"
    if s.regime ≠ regime then
      if (regime = "volatile" ∧ 0.035 < recentVol) ∨
          (regime = "trending" ∧ (3 ≤ cu ∨ 3 ≤ cd)) ∨
          (regime = "mean_reverting" ∧ 0.025 < priceDev) then
        (regime, { s with regime := regime })
      else (s.regime, s)
    else (regime, s)

/-- Python prices[-n] (n-th element from the end, callers guard length). -/
def nthFromEnd (l : List ℚ) (n : ℕ) : ℚ := (l.drop (l.length - n)).headI

/-- calculate_trend of Round_2/Trader_2: moving-average crossovers plus a
momentum term when at least 6 samples exist, a simple last-move signal
otherwise, smoothed by 0.7 old + 0.3 current; also records last_mid. -/
def calculateTrend (s : ProdState) (mid : ℚ) : ProdState × ℚ :=
  let lastMid := s.lastMid.getD mid
  let currentTrend : ℚ :=
    if 6 ≤ s.priceHistory.length then
      let prices := s.priceHistory
      let shortMa := (takeLast 3 prices).sum / 3
      let medMa := (takeLast 6 prices).sum / 6
      let longMa := prices.sum / (prices.length : ℚ)
      let base : ℚ :=
        if medMa < shortMa ∧ longMa < medMa then 1.5
        else if medMa < shortMa then 1
        else if shortMa < medMa ∧ medMa < longMa then -1.5
        else if shortMa < medMa then -1
        else 0
      if 4 ≤ prices.length then
        let p4 := nthFromEnd prices 4
        let recentChange := (prices.getLastD 0 - p4) / p4
        let momentum : ℚ :=
          0.5 * (if 0 < recentChange then 1 else if recentChange < 0 then -1 else 0)
        base + momentum
      else base
    else
      let pct := if lastMid ≠ 0 then (mid - lastMid) / lastMid else 0
      if 0.005 < pct then 1.5
      else if 0 < pct then 1
      else if pct < -0.005 then -1.5
      else if pct < 0 then -1
      else 0
  let newTrend := 0.7 * s.marketTrend + 0.3 * currentTrend
  ({ s with marketTrend := newTrend, lastMid := some mid }, newTrend)

/-- The pnl_history update of detect_drawdown: when the position changed,
append (Δposition)·(Δmid) and truncate to the window size 8. -/
def updatedPnl (s : ProdState) (position : ℤ) (mid : ℚ) : List ℚ :=
  let lastPosition := s.positionHistory.getLastD 0
  let lastPrice := s.lastMid.getD mid
  if lastPosition ≠ position then
    let recorded := s.pnlHistory ++ [((position - lastPosition : ℤ) : ℚ) * (mid - lastPrice)]
    if 8 < recorded.length then takeLast 8 recorded else recorded
  else s.pnlHistory

/-- The drawdown flag and counter transition of detect_drawdown (the code
of lines 366-385, which reads and writes only in_drawdown and
drawdown_counter): enter drawdown when the cumulative windowed P&L falls
below −0.04·limit; while flagged, increment the counter and, once the
cumulative P&L is positive or the counter reaches 10, clear the flag only
when the random draw r is below min(0.3·(1 + counter/10), 0.8). -/
def drawdownFlagStep (limit : ℤ) (pnl1 : List ℚ) (flag : Bool) (counter : ℤ)
    (r : ℚ) : Bool × ℤ :=
  if 8 ≤ pnl1.length then
    let cum := pnl1.sum
    if cum < -(0.04 : ℚ) * (limit : ℚ) then (true, 0)
    else if flag then
      let c := counter + 1
      if 0 < cum ∨ 10 ≤ c then
        let chance := (0.3 : ℚ) * (1 + (c : ℚ) / 10)
        if r < min chance 0.8 then (false, 0) else (flag, c)
      else (flag, c)
    else (flag, counter)
  else (flag, counter)

/-- detect_drawdown of Round_2/Trader_2 (DRAWDOWN_PROTECTION: window 8,
threshold 0.04, recovery_factor 0.3): record the estimated P&L and the
position history, then apply the flag/counter transition drawdownFlagStep
and return the updated flag together with the new state. -/
def detectDrawdown (product : String) (s : ProdState) (position : ℤ) (mid r : ℚ) :
    Bool × ProdState :=
  let limit := positionLimit product
  let pnl1 := updatedPnl s position mid
  let posHist0 := s.positionHistory ++ [position]
  let posHist1 := if 25 < posHist0.length then takeLast 25 posHist0 else posHist0
  let fc := drawdownFlagStep limit pnl1 s.inDrawdown s.drawdownCounter r
  (fc.1,
    { s with
      pnlHistory := pnl1
      positionHistory := posHist1
      inDrawdown := fc.1
      drawdownCounter := fc.2 })

/-- The regime-dependent EMA weight of calculate_fair_value: faster in
volatile and trending regimes, slower in mean-reverting ones. -/
def adjustedAlpha (alpha : ℚ) (regime : String) : ℚ :=
  if regime = "volatile" then min 0.7 (alpha * 1.5)
  else if regime = "trending" then min 0.6 (alpha * 1.3)
  else if regime = "mean_reverting" then max 0.15 (alpha * 0.7)
  else alpha

/-- calculate_fair_value of Round_2/Trader_2: seed the EMA with the first
mid price; afterwards ema' = α·mid + (1−α)·ema with the regime-adjusted α,
then add (trend-following) or subtract (mean-reverting) the trend
adjustment trend · regime_trend_factor · volatility · mid; the result is
also stored in fair_values for the arbitrage module. -/
def calculateFairValue (s : ProdState) (mid : ℚ) (params : Params) (regime : String) :
    ℚ × ProdState :=
  let alpha := adjustedAlpha params.alpha regime
  match s.emaPrice with
  | none =>
      (mid, { s with emaPrice := some mid, fairValue := some mid })
  | some oldEma =>
      let newEma := alpha * mid + (1 - alpha) * oldEma
      let s1 : ProdState := { s with emaPrice := some newEma }
      let ts := calculateTrend s1 mid
      let s2 := ts.1
      let trend := ts.2
      let rtf :=
        if regime = "trending" then params.trendFactor * 1.7
        else if regime = "mean_reverting" then params.trendFactor * 0.4
        else params.trendFactor
      let trendAdj := trend * rtf * (s2.volatility.getD 0.01) * mid
      let fv :=
        if params.meanReversion ∧ regime ≠ "trending" then newEma - trendAdj
        else newEma + trendAdj
      (fv, { s2 with fairValue := some fv })

/-- The adjusted take width of should_take_order: regime multiplier, plus
80·volatility, clamped to [1, 2·take_width]. -/
def adjustedTakeWidth (takeWidth : ℚ) (regime : String) (volatility : ℚ) : ℚ :=
  let w :=
    if regime = "volatile" then takeWidth * 1.4
    else if regime = "trending" then takeWidth * 0.7
    else if regime = "mean_reverting" then takeWidth * 0.75
    else takeWidth
  max 1 (min (w + volatility * 80) (takeWidth * 2))

/-- The effective position limit used by take_best_orders and make_market:
the product limit, scaled by 0.6 (floored) in drawdown, then by the
product's max_position_scale (floored). -/
def effectiveLimit (product : String) (params : Params) (inDrawdown : Bool) : ℤ :=
  let pl := positionLimit product
  let e1 : ℤ := if inDrawdown then ⌊(pl : ℚ) * 0.6⌋ else pl
  ⌊(e1 : ℚ) * params.maxPositionScale⌋

/-- The buy-side loop of take_best_orders: walk the asks in ascending
order, take while price ≤ fair − width, bounded by the remaining capacity
(capacity = effective_limit − position), stop at the first failing price
or once the capacity bound is reached. -/
def takeBuysLoop (product : String) (fv atw : ℚ) (capacity : ℤ) :
    List (ℤ × ℤ) → ℤ → List Order × ℤ
  | [], acc => ([], acc)
  | (price, amt) :: rest, acc =>
      if (price : ℚ) ≤ fv - atw then
        let maxBuy := capacity - acc
        let q := min |amt| maxBuy
        if 0 < q then
          let acc1 := acc + q
          if maxBuy ≤ acc1 then ([⟨product, price, q⟩], acc1)
          else
            let res := takeBuysLoop product fv atw capacity rest acc1
            (⟨product, price, q⟩ :: res.1, res.2)
        else takeBuysLoop product fv atw capacity rest acc
      else ([], acc)

/-- The sell-side loop of take_best_orders: walk the bids in descending
order, take while price ≥ fair + width, bounded by the remaining capacity
(capacity = effective_limit + position). -/
def takeSellsLoop (product : String) (fv atw : ℚ) (capacity : ℤ) :
    List (ℤ × ℤ) → ℤ → List Order × ℤ
  | [], acc => ([], acc)
  | (price, amt) :: rest, acc =>
      if fv + atw ≤ (price : ℚ) then
        let maxSell := capacity - acc
        let q := min amt maxSell
        if 0 < q then
          let acc1 := acc + q
          if maxSell ≤ acc1 then ([⟨product, price, -q⟩], acc1)
          else
            let res := takeSellsLoop product fv atw capacity rest acc1
            (⟨product, price, -q⟩ :: res.1, res.2)
        else takeSellsLoop product fv atw capacity rest acc
      else ([], acc)

/-- take_best_orders of Round_2/Trader_2: returns the proposed orders and
the cumulative buy and sell volumes. should_take_order recomputes the same
adjusted width at every loop iteration, so it is computed once here. -/
def takeBestOrders (product : String) (fv : ℚ) (depth : Depth) (position : ℤ)
    (params : Params) (regime : String) (volatility : ℚ) (inDrawdown : Bool) :
    List Order × ℤ × ℤ :=
  let eff := effectiveLimit product params inDrawdown
  let atw := adjustedTakeWidth params.takeWidth regime volatility
  let buyRes :=
    if depth.sells ≠ [] then
      takeBuysLoop product fv atw (eff - position) (sortPairsAsc depth.sells) 0
    else ([], 0)
  let sellRes :=
    if depth.buys ≠ [] then
      takeSellsLoop product fv atw (eff + position) (sortPairsDesc depth.buys) 0
    else ([], 0)
  (buyRes.1 ++ sellRes.1, buyRes.2, sellRes.2)

/-- calculate_spread of Round_2/Trader_2: regime- and drawdown-adjusted
spread factor and minimum spread, base spread from volatility, plus a
logarithmic position adjustment. lnModel is the model of math.log. -/
def calculateSpread (lnModel : ℚ → ℚ) (product : String) (fv : ℚ) (s : ProdState)
    (params : Params) (regime : String) (inDrawdown : Bool) : ℚ :=
  let volatility := s.volatility.getD 0.01
  let sf0 :=
    if regime = "volatile" then params.spreadFactor * 1.4
    else if regime = "trending" then params.spreadFactor * 0.8
    else if regime = "mean_reverting" then params.spreadFactor * 1.1
    else params.spreadFactor
  let ms0 :=
    if regime = "volatile" then max (params.minSpread + 1) (params.minSpread * 1.4)
    else if regime = "trending" then max 1 (params.minSpread - 1)
    else params.minSpread
  let sf := if inDrawdown then sf0 * 1.3 else sf0
  let ms := if inDrawdown then max (ms0 + 1) (ms0 * 1.5) else ms0
  let baseSpread : ℚ :=
    max ms ((⌈volatility * params.volatilityScale * fv * sf⌉ : ℤ) : ℚ)
  let plimit := positionLimit product
  let posFrac : ℚ := if 0 < plimit then |(s.currentPosition : ℚ)| / (plimit : ℚ) else 0
  let posAdj : ℤ := ⌈lnModel (1 + 5 * posFrac) * baseSpread * params.riskAversion⌉
  baseSpread + (posAdj : ℚ)

/-- The minimum-spread enforcement block shared verbatim by the two
make_market implementations: when ask − bid < min_spread, widen both sides
symmetrically by half the deficit (floor on the bid, ceil on the ask). -/
def widenToMinSpread (minSpread : ℚ) (bid ask : ℤ) : ℤ × ℤ :=
  if (ask : ℚ) - (bid : ℚ) < minSpread then
    let adj := (minSpread - ((ask : ℚ) - (bid : ℚ))) / 2
    (⌊(bid : ℚ) - adj⌋, ⌈(ask : ℚ) + adj⌉)
  else (bid, ask)

/-- The quote prices of make_market (Round_2/Trader_2 lines 614-633):
floor/ceil of fair ∓ half-spread plus the trend/position bias adjustment,
then the minimum-spread enforcement. -/
def mmPrices (minSpread : ℚ) (fv spread : ℚ) (position eff : ℤ) (trend : ℚ) : ℤ × ℤ :=
  let half := spread / 2
  let posBias : ℚ := if 0 < eff then -(position : ℚ) / (eff : ℚ) else 0
  let biasFactor := trend * 0.3 + posBias * 0.7
  let biasAdj := half * biasFactor * 0.5
  let bid : ℤ := ⌊fv - half + biasAdj⌋
  let ask : ℤ := ⌈fv + half + biasAdj⌉
  widenToMinSpread minSpread bid ask

/-- make_market of Round_2/Trader_2: quote prices via mmPrices, dynamic
base size (10% of the effective limit, regime- and drawdown-scaled), and
sizes clipped to the remaining capacity on each side. -/
def makeMarket (product : String) (params : Params) (fv spread : ℚ) (position : ℤ)
    (s : ProdState) (regime : String) (inDrawdown : Bool) : List Order :=
  let eff := effectiveLimit product params inDrawdown
  let ae :=
    if regime = "volatile" then params.aggressiveEdge * 0.8
    else if regime = "trending" then params.aggressiveEdge * 1.3
    else if regime = "mean_reverting" then params.aggressiveEdge * 1.1
    else params.aggressiveEdge
  let prices := mmPrices params.minSpread fv spread position eff s.marketTrend
  let posBias : ℚ := if 0 < eff then -(position : ℚ) / (eff : ℚ) else 0
  let remainingBuy := eff - position
  let remainingSell := eff + position
  let baseSize0 : ℤ := max 1 (ratTrunc ((eff : ℚ) * 0.1))
  let baseSize1 : ℤ :=
    if regime = "volatile" then max 1 (ratTrunc ((baseSize0 : ℚ) * 0.8))
    else if regime = "trending" then max 1 (ratTrunc ((baseSize0 : ℚ) * 1.3))
    else baseSize0
  let baseSize : ℤ :=
    if inDrawdown then max 1 (ratTrunc ((baseSize1 : ℚ) * 0.7)) else baseSize1
  let buySize : ℤ := min remainingBuy ⌈(baseSize : ℚ) * (1 + ae * (1 - posBias))⌉
  let sellSize : ℤ := min remainingSell ⌈(baseSize : ℚ) * (1 + ae * (1 + posBias))⌉
  (if 0 < buySize then [⟨product, prices.1, buySize⟩] else []) ++
    (if 0 < sellSize then [⟨product, prices.2, -sellSize⟩] else [])

/-- The per-product body of run (Round_2/Trader_2 lines 856-921): skip the
product when it is absent from the position mapping; skip an entirely
empty book; for a two-sided book require best_bid < best_ask (skip a
crossed book) and use the midpoint, otherwise use the best available
side's price as the mid; then volatility → regime → drawdown → fair value
→ take orders → spread → market-making orders. The run prologue's
current_position update for products present in the position mapping is
applied on entry. r models random.random(), lnModel models math.log. -/
def processProduct (lnModel : ℚ → ℚ) (product : String) (depth : Depth)
    (positions : List (String × ℤ)) (s : ProdState) (r : ℚ) :
    List Order × ProdState :=
  match lookupA positions product with
  | none => ([], s)
  | some position =>
    let s0 : ProdState := { s with currentPosition := position }
    if depth.buys = [] ∧ depth.sells = [] then ([], s0)
    else
      let midOpt : Option ℚ :=
        if depth.sells ≠ [] ∧ depth.buys ≠ [] then
          let bestBid := maxKey depth.buys
          let bestAsk := minKey depth.sells
          if bestAsk ≤ bestBid then none
          else some (((bestBid + bestAsk : ℤ) : ℚ) / 2)
        else if depth.sells ≠ [] then some ((minKey depth.sells : ℤ) : ℚ)
        else some ((maxKey depth.buys : ℤ) : ℚ)
      match midOpt with
      | none => ([], s0)
      | some mid =>
        let params := getProductParams product
        let v := calculateVolatility s0 mid
        let s1 := v.1
        let volatility := v.2
        let rg := detectMarketRegime s1 mid
        let regime := rg.1
        let s2 := rg.2
        let dd := detectDrawdown product s2 position mid r
        let inDrawdown := dd.1
        let s3 := dd.2
        let fvr := calculateFairValue s3 mid params regime
        let fv := fvr.1
        let s4 := fvr.2
        let takeRes := takeBestOrders product fv depth position params regime volatility inDrawdown
        let adjPos := position + takeRes.2.1 - takeRes.2.2
        let s5 : ProdState := { s4 with currentPosition := adjPos }
        let spread := calculateSpread lnModel product fv s5 params regime inDrawdown
        (takeRes.1 ++ makeMarket product params fv spread adjPos s5 regime inDrawdown, s5)

/-- The signal slice of the per-tick pipeline in the order run invokes it:
calculate_volatility, then detect_market_regime, then calculate_fair_value
(detect_drawdown writes none of the signal fields and is omitted). -/
def signalStep (params : Params) (s : ProdState) (mid : ℚ) : ℚ × ProdState :=
  let v := calculateVolatility s mid
  let rg := detectMarketRegime v.1 mid
  calculateFairValue rg.2 mid params rg.1

/-- The signal pipeline iterated over a sequence of mid prices, returning
the last tick's fair value and the final state. -/
def signalRun (params : Params) : ProdState → List ℚ → ℚ × ProdState
  | s, [] => (0, s)
  | s, [m] => signalStep params s m
  | s, m :: m2 :: rest => signalRun params (signalStep params s m).2 (m2 :: rest)

/-- ARBITRAGE_PARAMS basket_discount (0.97) applied to the component value,
from trader_data fair values when present, else from the component's mid
price; none models the component_limits_ok = False skip (a component with
no fair value and a one-sided or missing book). -/
def componentValue (fairValues : List (String × ℚ)) (orderDepths : List (String × Depth)) :
    List (String × ℤ) → Option ℚ
  | [] => some 0
  | (component, quantity) :: rest =>
      match lookupA fairValues component with
      | some fv =>
          match componentValue fairValues orderDepths rest with
          | none => none
          | some acc => some (fv * (quantity : ℚ) + acc)
      | none =>
          match lookupA orderDepths component with
          | none => none
          | some d =>
              if d.buys = [] ∨ d.sells = [] then none
              else
                let midc := ((maxKey d.buys + minKey d.sells : ℤ) : ℚ) / 2
                match componentValue fairValues orderDepths rest with
                | none => none
                | some acc => some (midc * (quantity : ℚ) + acc)

/-- The joint sizing loop over the composition in direction 1 (buy basket,
sell components): max_baskets is reduced by (component_limit −
component_position) // quantity for every component; none models the
ZeroDivisionError raised when a component quantity is 0. -/
def maxBasketsDir1 (inventory : List (String × ℤ)) :
    List (String × ℤ) → ℤ → Option ℤ
  | [], mb => some mb
  | (component, quantity) :: rest, mb =>
      let cpos := (lookupA inventory component).getD 0
      let climit := positionLimit component
      match pyFloorDiv (climit - cpos) quantity with
      | none => none
      | some mcl => maxBasketsDir1 inventory rest (min mb mcl)

/-- The joint sizing loop in direction 2 (sell basket, buy components):
(component_position + component_limit) // quantity per component. -/
def maxBasketsDir2 (inventory : List (String × ℤ)) :
    List (String × ℤ) → ℤ → Option ℤ
  | [], mb => some mb
  | (component, quantity) :: rest, mb =>
      let cpos := (lookupA inventory component).getD 0
      let climit := positionLimit component
      match pyFloorDiv (cpos + climit) quantity with
      | none => none
      | some mcl => maxBasketsDir2 inventory rest (min mb mcl)

/-- The component sell legs of direction 1: each component with a
non-empty bid side is sold at its best bid for max_baskets · quantity
(components with no bids are silently skipped, as in the source). -/
def dir1ComponentLegs (orderDepths : List (String × Depth)) (mb : ℤ) :
    List (String × ℤ) → List Order
  | [] => []
  | (component, quantity) :: rest =>
      (match lookupA orderDepths component with
       | none => []
       | some d =>
           if d.buys = [] then []
           else [⟨component, maxKey d.buys, -(mb * quantity)⟩]) ++
        dir1ComponentLegs orderDepths mb rest

/-- The component buy legs of direction 2: each component with a non-empty
ask side is bought at its best ask for max_baskets · quantity. -/
def dir2ComponentLegs (orderDepths : List (String × Depth)) (mb : ℤ) :
    List (String × ℤ) → List Order
  | [] => []
  | (component, quantity) :: rest =>
      (match lookupA orderDepths component with
       | none => []
       | some d =>
           if d.sells = [] then []
           else [⟨component, minKey d.sells, mb * quantity⟩]) ++
        dir2ComponentLegs orderDepths mb rest

/-- The body of manage_basket_arbitrage for one basket: availability
checks, component valuation with the 0.97 basket discount, then both
arbitrage directions with profit threshold min_profit_per_lot = 1 and lot
cap max_arbitrage_lots = 10. some orders = the orders appended for this
basket; none = a ZeroDivisionError in a sizing loop. The
arbitrage_executed bookkeeping counters are not modelled: they influence
no order decision. -/
def basketArbOne (basket : String) (products : List String)
    (inventory : List (String × ℤ)) (fairValues : List (String × ℚ))
    (orderDepths : List (String × Depth)) : Option (List Order) :=
  if ¬ products.contains basket then some []
  else if ¬ (basketComposition basket).all (fun cq => products.contains cq.1) then some []
  else
    let basketPosition := (lookupA inventory basket).getD 0
    let basketLimit := positionLimit basket
    match lookupA orderDepths basket with
    | none => some []
    | some basketDepth =>
      match componentValue fairValues orderDepths (basketComposition basket) with
      | none => some []
      | some cv =>
        let expected := cv * 0.97
        let dir1 : Option (List Order) :=
          if basketDepth.sells ≠ [] then
            let basketAsk := minKey basketDepth.sells
            let askVol := |(lookupA basketDepth.sells basketAsk).getD 0|
            if 1 ≤ expected - (basketAsk : ℚ) then
              let mb0 := min (min askVol 10) (basketLimit - basketPosition)
              match maxBasketsDir1 inventory (basketComposition basket) mb0 with
              | none => none
              | some mb =>
                  if 0 < mb then
                    some (⟨basket, basketAsk, mb⟩ ::
                      dir1ComponentLegs orderDepths mb (basketComposition basket))
                  else some []
            else some []
          else some []
        let dir2 : Option (List Order) :=
          if basketDepth.buys ≠ [] then
            let basketBid := maxKey basketDepth.buys
            let bidVol := (lookupA basketDepth.buys basketBid).getD 0
            if 1 ≤ (basketBid : ℚ) - expected then
              let mb0 := min (min bidVol 10) (basketLimit + basketPosition)
              match maxBasketsDir2 inventory (basketComposition basket) mb0 with
              | none => none
              | some mb =>
                  if 0 < mb then
                    some (⟨basket, basketBid, -mb⟩ ::
                      dir2ComponentLegs orderDepths mb (basketComposition basket))
                  else some []
            else some []
          else some []
        match dir1 with
        | none => none
        | some o1 =>
            match dir2 with
            | none => none
            | some o2 => some (o1 ++ o2)

/-- manage_basket_arbitrage of Round_2/Trader_2: the loop over
BASKET_COMPOSITION, PICNIC_BASKET1 first, then PICNIC_BASKET2; none
models an uncaught ZeroDivisionError aborting the tick. -/
def manageBasketArbitrage (products : List String) (inventory : List (String × ℤ))
    (fairValues : List (String × ℚ)) (orderDepths : List (String × Depth)) :
    Option (List Order) :=
  match basketArbOne "PICNIC_BASKET1" products inventory fairValues orderDepths with
  | none => none
  | some o1 =>
      match basketArbOne "PICNIC_BASKET2" products inventory fairValues orderDepths with
      | none => none
      | some o2 => some (o1 ++ o2)

end TraderR2

namespace TraderR1

/-!
The Round-1 variant persists the same per-product trader_data keys as
Round_2 (price_history, volatility, ema_prices, last_mid_prices,
market_trend, market_regime, pnl_history, position_history, in_drawdown,
current_position), so its state is modelled by the same record
TraderR2.ProdState; the drawdown_counter and fair_values fields of that
record are simply never touched by the Round-1 functions (the source has
no counter and no fair_values dict).
-/

/-- POSITION_LIMITS of Round_1/Trader_16 (with the DEFAULT fallback of
get_position_limit). -/
def positionLimit (product : String) : ℤ :=
  if product = "RAINFOREST_RESIN" then 50
  else if product = "KELP" then 50
  else if product = "SQUID_INK" then 50
  else 20

/-- DEFAULT_PARAMS of Round_1/Trader_16. -/
def defaultParams : Params :=
  ⟨0.3, 0.8, 0.5, true, 1.0, 2, 3, 0.5, 0.5, 0.9⟩

/-- PRODUCT_PARAMS of Round_1/Trader_16, with the get_product_params
fallback to DEFAULT_PARAMS. -/
def getProductParams (product : String) : Params :=
  if product = "RAINFOREST_RESIN" then ⟨0.2, 0.5, 0.3, true, 1.0, 1, 2, 0.3, 0.3, 1.0⟩
  else if product = "KELP" then ⟨0.3, 0.7, 0.7, false, 1.5, 2, 3, 0.5, 0.5, 0.9⟩
  else if product = "SQUID_INK" then ⟨0.4, 1.0, 0.8, true, 2.0, 3, 4, 0.7, 0.7, 0.8⟩
  else defaultParams

/-- calculate_volatility of Round_1/Trader_16: identical to the Round_2
version except for the window length (history_len = 15). -/
def calculateVolatility (s : TraderR2.ProdState) (mid : ℚ) :
    TraderR2.ProdState × ℚ :=
  let hist0 := s.priceHistory ++ [mid]
  let hist := if 15 < hist0.length then takeLast 15 hist0 else hist0
  let s1 : TraderR2.ProdState := { s with priceHistory := hist }
  if 3 ≤ hist.length ∧ priceChanges hist ≠ [] then
    let changes := priceChanges hist
    let vol := if 1 < changes.length then sampleStdev changes else changes.headI
    let oldVol := s1.volatility.getD vol
    let newVol := 0.8 * oldVol + 0.2 * vol
    ({ s1 with volatility := some newVol }, newVol)
  else
    match s1.volatility with
    | none => ({ s1 with volatility := some 0.01 }, 0.01)
    | some v => (s1, v)

/-- detect_market_regime of Round_1/Trader_16 (lines 99-159): fewer than 5
samples means "normal"; otherwise classify trending / volatile /
mean_reverting / normal from the last 5 prices (detection thresholds:
3 consecutive moves, volatility 0.03, deviation 0.02) and apply the switch
conditions of lines 150-156 (acceptance thresholds: volatility 0.05,
4 consecutive moves, deviation 0.03) before overwriting the stored
regime. -/
def detectMarketRegime (s : TraderR2.ProdState) (currentPrice : ℚ) :
    String × TraderR2.ProdState :=
  if s.priceHistory.length < 5 then
    ("normal", { s with regime := "normal" })
  else
    let prices := takeLast 5 s.priceHistory
    let cucd := TraderR2.consecMoves prices
    let cu := cucd.1
    let cd := cucd.2
    let recentVol := s.volatility.getD 0.01
    let avgPrice := prices.sum / (prices.length : ℚ)
    let priceDev := |currentPrice - avgPrice| / avgPrice
    let regime :=
      if 3 ≤ cu ∨ 3 ≤ cd then "trending"
      else if 0.03 < recentVol then "volatile"
      else if 0.02 < priceDev then "mean_reverting"
      else "normal"
    if s.regime ≠ regime then
      if (regime = "volatile" ∧ 0.05 < recentVol) ∨
          (regime = "trending" ∧ (4 ≤ cu ∨ 4 ≤ cd)) ∨
          (regime = "mean_reverting" ∧ 0.03 < priceDev) then
        (regime, { s with regime := regime })
      else (s.regime, s)
    else (regime, s)

/-- calculate_trend of Round_1/Trader_16: moving-average crossover (short
MA over the last 3 prices vs the full-history MA) when at least 5 samples
exist, a simple last-move signal otherwise, smoothed by
0.8 old + 0.2 current; also records last_mid. -/
def calculateTrend (s : TraderR2.ProdState) (mid : ℚ) :
    TraderR2.ProdState × ℚ :=
  let lastMid := s.lastMid.getD mid
  let currentTrend : ℚ :=
    if 5 ≤ s.priceHistory.length then
      let prices := s.priceHistory
      let shortMa := (takeLast 3 prices).sum / 3
      let longMa := prices.sum / (prices.length : ℚ)
      if longMa < shortMa then 1
      else if shortMa < longMa then -1
      else 0
    else
      if lastMid < mid then 1
      else if mid < lastMid then -1
      else 0
  let newTrend := 0.8 * s.marketTrend + 0.2 * currentTrend
  ({ s with marketTrend := newTrend, lastMid := some mid }, newTrend)

/-- The pnl_history update of Round_1 detect_drawdown: when the position
changed, append (Δposition)·(Δmid) and truncate to the window size 10. -/
def updatedPnl (s : TraderR2.ProdState) (position : ℤ) (mid : ℚ) : List ℚ :=
  let lastPosition := s.positionHistory.getLastD 0
  let lastPrice := s.lastMid.getD mid
  if lastPosition ≠ position then
    let recorded := s.pnlHistory ++ [((position - lastPosition : ℤ) : ℚ) * (mid - lastPrice)]
    if 10 < recorded.length then takeLast 10 recorded else recorded
  else s.pnlHistory

/-- The drawdown flag transition of Round_1 detect_drawdown (lines
294-307): enter drawdown when the cumulative windowed P&L falls below
−0.05·limit; while flagged with positive cumulative P&L, clear the flag
only when the random draw r is below the fixed recovery factor 0.2 —
there is no counter and no deterministic exit. -/
def drawdownFlagStep (limit : ℤ) (pnl1 : List ℚ) (flag : Bool) (r : ℚ) : Bool :=
  if 10 ≤ pnl1.length then
    let cum := pnl1.sum
    if cum < -(0.05 : ℚ) * (limit : ℚ) then true
    else if flag ∧ 0 < cum then
      if r < (0.2 : ℚ) then false else flag
    else flag
  else flag

/-- detect_drawdown of Round_1/Trader_16 (DRAWDOWN_PROTECTION: window 10,
threshold 0.05, recovery_factor 0.2): record the estimated P&L and the
position history (cap 20), apply the flag transition drawdownFlagStep and
return the updated flag together with the new state. -/
def detectDrawdown (product : String) (s : TraderR2.ProdState) (position : ℤ)
    (mid r : ℚ) : Bool × TraderR2.ProdState :=
  let limit := positionLimit product
  let pnl1 := updatedPnl s position mid
  let posHist0 := s.positionHistory ++ [position]
  let posHist1 := if 20 < posHist0.length then takeLast 20 posHist0 else posHist0
  let flag := drawdownFlagStep limit pnl1 s.inDrawdown r
  (flag,
    { s with
      pnlHistory := pnl1
      positionHistory := posHist1
      inDrawdown := flag })

/-- The regime-dependent EMA weight of Round_1 calculate_fair_value. -/
def adjustedAlpha (alpha : ℚ) (regime : String) : ℚ :=
  if regime = "volatile" then min 0.6 (alpha * 1.5)
  else if regime = "trending" then min 0.5 (alpha * 1.3)
  else if regime = "mean_reverting" then max 0.1 (alpha * 0.7)
  else alpha

/-- calculate_fair_value of Round_1/Trader_16: seed the EMA with the first
mid price; afterwards ema' = α·mid + (1−α)·ema with the regime-adjusted α,
then add (trend-following) or subtract (mean-reverting) the trend
adjustment trend · regime_trend_factor · volatility · mid. Unlike Round_2,
no fair_values entry is stored. -/
def calculateFairValue (s : TraderR2.ProdState) (mid : ℚ) (params : Params)
    (regime : String) : ℚ × TraderR2.ProdState :=
  let alpha := adjustedAlpha params.alpha regime
  match s.emaPrice with
  | none => (mid, { s with emaPrice := some mid })
  | some oldEma =>
      let newEma := alpha * mid + (1 - alpha) * oldEma
      let s1 : TraderR2.ProdState := { s with emaPrice := some newEma }
      let ts := calculateTrend s1 mid
      let s2 := ts.1
      let trend := ts.2
      let rtf :=
        if regime = "trending" then params.trendFactor * 1.5
        else if regime = "mean_reverting" then params.trendFactor * 0.5
        else params.trendFactor
      let trendAdj := trend * rtf * (s2.volatility.getD 0.01) * mid
      let fv :=
        if params.meanReversion ∧ regime ≠ "trending" then newEma - trendAdj
        else newEma + trendAdj
      (fv, s2)

/-- The adjusted take width of Round_1 should_take_order: regime
multiplier (1.5 volatile, 0.8 trending), plus 100·volatility, with no
clamping. -/
def adjustedTakeWidth (takeWidth : ℚ) (regime : String) (volatility : ℚ) : ℚ :=
  let w :=
    if regime = "volatile" then takeWidth * 1.5
    else if regime = "trending" then takeWidth * 0.8
    else takeWidth
  w + volatility * 100

/-- The effective position limit of Round_1 take_best_orders and
make_market: the product limit, scaled by 0.5 (floored) in drawdown, then
by the product's max_position_scale (floored). -/
def effectiveLimit (product : String) (params : Params) (inDrawdown : Bool) : ℤ :=
  let pl := positionLimit product
  let e1 : ℤ := if inDrawdown then ⌊(pl : ℚ) * 0.5⌋ else pl
  ⌊(e1 : ℚ) * params.maxPositionScale⌋

/-- take_best_orders of Round_1/Trader_16: touches only the single best
price level on each side (no loop); returns the proposed orders and the
cumulative buy and sell volumes. -/
def takeBestOrders (product : String) (fv : ℚ) (depth : Depth) (position : ℤ)
    (params : Params) (regime : String) (volatility : ℚ) (inDrawdown : Bool) :
    List Order × ℤ × ℤ :=
  let eff := effectiveLimit product params inDrawdown
  let atw := adjustedTakeWidth params.takeWidth regime volatility
  let buyRes : List Order × ℤ :=
    if depth.sells ≠ [] then
      let bestAsk := minKey depth.sells
      let amt := |((lookupA depth.sells bestAsk).getD 0)|
      if (bestAsk : ℚ) ≤ fv - atw then
        let q := min amt (eff - position)
        if 0 < q then ([⟨product, bestAsk, q⟩], q) else ([], 0)
      else ([], 0)
    else ([], 0)
  let sellRes : List Order × ℤ :=
    if depth.buys ≠ [] then
      let bestBid := maxKey depth.buys
      let amt := (lookupA depth.buys bestBid).getD 0
      if fv + atw ≤ (bestBid : ℚ) then
        let q := min amt (eff + position)
        if 0 < q then ([⟨product, bestBid, -q⟩], q) else ([], 0)
      else ([], 0)
    else ([], 0)
  (buyRes.1 ++ sellRes.1, buyRes.2, sellRes.2)

/-- calculate_spread of Round_1/Trader_16: regime- and drawdown-adjusted
spread factor and minimum spread, base spread from volatility, plus a
quadratic position adjustment ⌈ratio² · base_spread · risk_aversion⌉ (no
logarithm in this variant). Reads the position the run prologue recorded
in current_position. -/
def calculateSpread (product : String) (fv : ℚ) (s : TraderR2.ProdState)
    (params : Params) (regime : String) (inDrawdown : Bool) : ℚ :=
  let volatility := s.volatility.getD 0.01
  let sf0 :=
    if regime = "volatile" then params.spreadFactor * 1.5
    else if regime = "trending" then params.spreadFactor * 0.9
    else if regime = "mean_reverting" then params.spreadFactor * 1.2
    else params.spreadFactor
  let ms0 :=
    if regime = "volatile" then max (params.minSpread + 1) (params.minSpread * 1.5)
    else params.minSpread
  let sf := if inDrawdown then sf0 * 1.5 else sf0
  let ms := if inDrawdown then max (ms0 + 2) (ms0 * 2) else ms0
  let baseSpread : ℚ :=
    max ms ((⌈volatility * params.volatilityScale * fv * sf⌉ : ℤ) : ℚ)
  let plimit := positionLimit product
  let posRatio : ℚ := if 0 < plimit then |(s.currentPosition : ℚ)| / (plimit : ℚ) else 0
  let posAdj : ℤ := ⌈posRatio * posRatio * baseSpread * params.riskAversion⌉
  baseSpread + (posAdj : ℚ)

/-- The quote prices of make_market in Round_1/Trader_16 (lines 499-519):
position-dependent asymmetric half-spread scaling, then the same
minimum-spread enforcement block as Round_2. The source divides by
effective_limit without a guard; the embedding is faithful for
effective_limit ≠ 0 (every configured product limit is positive). -/
def mmPrices (minSpread : ℚ) (fv half ae : ℚ) (position eff : ℤ) : ℤ × ℤ :=
  let bid : ℤ :=
    if 0 < position then ⌊fv - half * (1 + (position : ℚ) / (eff : ℚ))⌋
    else if position < 0 then ⌊fv - half * (1 - ae)⌋
    else ⌊fv - half⌋
  let ask : ℤ :=
    if 0 < position then ⌈fv + half * (1 - ae)⌉
    else if position < 0 then ⌈fv + half * (1 + |(position : ℚ)| / (eff : ℚ))⌉
    else ⌈fv + half⌉
  TraderR2.widenToMinSpread minSpread bid ask

/-- make_market of Round_1/Trader_16: quote prices via mmPrices with the
regime-adjusted aggressive edge (×0.7 volatile, ×1.2 trending), then one
buy and one sell order sized max(1, ⌊capacity · size_factor⌋) whenever the
respective capacity — measured from the original position — is positive
(size factor ×0.8 in volatile regimes, ×0.7 in drawdown). -/
def makeMarket (product : String) (params : Params) (fv spread : ℚ)
    (position : ℤ) (regime : String) (inDrawdown : Bool) : List Order :=
  let eff := effectiveLimit product params inDrawdown
  let ae :=
    if regime = "volatile" then params.aggressiveEdge * 0.7
    else if regime = "trending" then params.aggressiveEdge * 1.2
    else params.aggressiveEdge
  let half := spread / 2
  let prices := mmPrices params.minSpread fv half ae position eff
  let buyCapacity := eff - position
  let sellCapacity := eff + position
  let sf1 : ℚ := if regime = "volatile" then 1 * 0.8 else 1
  let sizeFactor : ℚ := if inDrawdown then sf1 * 0.7 else sf1
  (if 0 < buyCapacity then
      [⟨product, prices.1, max 1 ⌊(buyCapacity : ℚ) * sizeFactor⌋⟩]
    else []) ++
    (if 0 < sellCapacity then
      [⟨product, prices.2, -(max 1 ⌊(sellCapacity : ℚ) * sizeFactor⌋)⟩]
    else [])

/-- The per-product body of run (Round_1/Trader_16 lines 563-628): skip
any product whose book is one-sided or empty (the `continue` of line 566)
before the state is touched; record current_position; after computing the
best bid and ask, skip a crossed book (best_bid ≥ best_ask, line 587);
otherwise take the midpoint and run volatility → regime → drawdown → fair
value → take orders → spread → market-making orders. Positions absent from
state.position default to 0 (no skip, unlike Round_2); r models
random.random(). -/
def processProduct (product : String) (depth : Depth)
    (positions : List (String × ℤ)) (s : TraderR2.ProdState) (r : ℚ) :
    List Order × TraderR2.ProdState :=
  if depth.buys = [] ∨ depth.sells = [] then ([], s)
  else
    let position := (lookupA positions product).getD 0
    let s0 : TraderR2.ProdState := { s with currentPosition := position }
    let params := getProductParams product
    let bestBid := maxKey depth.buys
    let bestAsk := minKey depth.sells
    if bestAsk ≤ bestBid then ([], s0)
    else
      let mid : ℚ := ((bestBid + bestAsk : ℤ) : ℚ) / 2
      let v := calculateVolatility s0 mid
      let s1 := v.1
      let volatility := v.2
      let rg := detectMarketRegime s1 mid
      let regime := rg.1
      let s2 := rg.2
      let dd := detectDrawdown product s2 position mid r
      let inDrawdown := dd.1
      let s3 := dd.2
      let fvr := calculateFairValue s3 mid params regime
      let fv := fvr.1
      let s4 := fvr.2
      let takeRes := takeBestOrders product fv depth position params regime volatility inDrawdown
      let spread := calculateSpread product fv s4 params regime inDrawdown
      (takeRes.1 ++ makeMarket product params fv spread position regime inDrawdown, s4)

end TraderR1

end ProsperitySpec

open ProsperitySpec
open ProsperitySpec.TraderR2

section MainTheorems

set_option maxRecDepth 40000

attribute [local semireducible] Rat.mul Rat.add Rat.inv Rat.sub Rat.ofScientific

/-! Helper lemmas about the embedded operations. -/

theorem calcVol_inDrawdown (s : ProdState) (mid : ℚ) :
    (calculateVolatility s mid).1.inDrawdown = s.inDrawdown := by
  simp only [calculateVolatility]
  repeat' split
  all_goals rfl

theorem regime_inDrawdown (s : ProdState) (p : ℚ) :
    (detectMarketRegime s p).2.inDrawdown = s.inDrawdown := by
  simp only [detectMarketRegime]
  repeat' split
  all_goals rfl

theorem detectDrawdown_rand_free (product : String) (s : ProdState) (position : ℤ)
    (mid r r' : ℚ) (h : s.inDrawdown = false) :
    detectDrawdown product s position mid r = detectDrawdown product s position mid r' := by
  unfold detectDrawdown drawdownFlagStep
  simp only [h, Bool.false_eq_true, if_false]

/-- C10: in the per-instrument take/quote pass of run, a product present in
the order-depth snapshot but absent from the position mapping is skipped
entirely: no orders are emitted for it and its persisted state is
untouched, whatever its book looks like. -/
theorem claim10_missing_position_skipped (lnModel : ℚ → ℚ) (product : String)
    (depth : Depth) (positions : List (String × ℤ)) (s : ProdState) (r : ℚ)
    (h : lookupA positions product = none) :
    processProduct lnModel product depth positions s r = ([], s) := by
  unfold processProduct
  rw [h]

theorem claim10_witness :
    lookupA [("JAM", (5 : ℤ))] "CROISSANT" = none ∧
      processProduct (fun _ => 0) "CROISSANT" ⟨[(100, 5)], [(102, -5)]⟩
          [("JAM", 5)] ProdState.init 0 = ([], ProdState.init) :=
  ⟨by decide,
    claim10_missing_position_skipped (fun _ => 0) "CROISSANT" ⟨[(100, 5)], [(102, -5)]⟩
      [("JAM", 5)] ProdState.init 0 (by decide)⟩

/-- C9 counterexample: the Round-2 engine does trade a one-sided book. On a
book with only bids (best bid 100), a fresh state and position 0, the
per-product pass emits market-making orders rather than skipping the
instrument, contradicting the claim that one-sided books are skipped. -/
theorem claim9_counterexample :
    (processProduct (fun _ => 0) "CROISSANT" ⟨[(100, 5)], []⟩
        [("CROISSANT", 0)] ProdState.init 0).1 =
      [⟨"CROISSANT", 99, 40⟩, ⟨"CROISSANT", 101, -40⟩] ∧
    (processProduct (fun _ => 0) "CROISSANT" ⟨[(100, 5)], []⟩
        [("CROISSANT", 0)] ProdState.init 0).1 ≠ [] := by
  constructor
  · decide
  · decide

/-- C9 amended: the Round-2 per-product pass emits no orders for an
instrument whose book is completely empty or crossed (best bid ≥ best
ask) — a one-sided book, however, is traded (see the counterexample) —
while the Round-1 per-product pass skips a one-sided or empty book
entirely (no orders, state untouched) and also emits no orders for a
crossed book. -/
theorem claim9_book_guards :
    (∀ (lnModel : ℚ → ℚ) (product : String) (depth : Depth)
        (positions : List (String × ℤ)) (s : ProdState) (r : ℚ),
      ((depth.buys = [] ∧ depth.sells = []) →
          (processProduct lnModel product depth positions s r).1 = []) ∧
        (depth.buys ≠ [] → depth.sells ≠ [] →
          minKey depth.sells ≤ maxKey depth.buys →
          (processProduct lnModel product depth positions s r).1 = [])) ∧
      (∀ (product : String) (depth : Depth) (positions : List (String × ℤ))
          (s : ProdState) (r : ℚ),
        ((depth.buys = [] ∨ depth.sells = []) →
            TraderR1.processProduct product depth positions s r = ([], s)) ∧
          (minKey depth.sells ≤ maxKey depth.buys →
            (TraderR1.processProduct product depth positions s r).1 = [])) := by
  constructor
  · intro lnModel product depth positions s r
    constructor
    · intro h
      unfold processProduct
      cases hl : lookupA positions product with
      | none => rfl
      | some position => simp [h]
    · intro hb hs hcross
      unfold processProduct
      cases hl : lookupA positions product with
      | none => rfl
      | some position =>
          simp only []
          rw [if_neg (by simp [hb])]
          rw [if_pos ⟨hs, hb⟩, if_pos hcross]
  · intro product depth positions s r
    constructor
    · intro h
      unfold TraderR1.processProduct
      rw [if_pos h]
    · intro hcross
      by_cases h : depth.buys = [] ∨ depth.sells = []
      · unfold TraderR1.processProduct
        rw [if_pos h]
      · simp only [TraderR1.processProduct]
        rw [if_neg h, if_pos hcross]

theorem claim9_guards_witness :
    (((⟨[(105, 5)], [(100, -5)]⟩ : Depth).buys ≠ [] ∧
        (⟨[(105, 5)], [(100, -5)]⟩ : Depth).sells ≠ [] ∧
        minKey (⟨[(105, 5)], [(100, -5)]⟩ : Depth).sells ≤
          maxKey (⟨[(105, 5)], [(100, -5)]⟩ : Depth).buys) ∧
      (processProduct (fun _ => 0) "CROISSANT" ⟨[(105, 5)], [(100, -5)]⟩
          [("CROISSANT", 0)] ProdState.init 0).1 = []) ∧
      (((⟨[(100, 5)], []⟩ : Depth).buys = [] ∨
          (⟨[(100, 5)], []⟩ : Depth).sells = []) ∧
        TraderR1.processProduct "KELP" ⟨[(100, 5)], []⟩ []
            ProdState.init 0 = ([], ProdState.init)) :=
  ⟨⟨⟨by decide, by decide, by decide⟩,
      (claim9_book_guards.1 (fun _ => 0) "CROISSANT" ⟨[(105, 5)], [(100, -5)]⟩
          [("CROISSANT", 0)] ProdState.init 0).2 (by decide) (by decide) (by decide)⟩,
    ⟨by decide,
      (claim9_book_guards.2 "KELP" ⟨[(100, 5)], []⟩ []
          ProdState.init 0).1 (by decide)⟩⟩

/-- C2: the claim that no tick computation divides by zero is refuted by
the code itself: with PICNIC_BASKET2 and all three components present and
a profitable buy-basket direction, manage_basket_arbitrage computes
(component_limit - component_position) // quantity for the DJEMBE entry of
PICNIC_BASKET2, whose quantity is 0, raising ZeroDivisionError (modelled
as none). The spec's error-handling design says arithmetic edge cases must
fall back to defined constants instead. -/
theorem claim2_div_by_zero :
    manageBasketArbitrage ["PICNIC_BASKET2", "CROISSANT", "JAM", "DJEMBE"]
        [("PICNIC_BASKET2", 0), ("CROISSANT", 0), ("JAM", 0), ("DJEMBE", 0)] []
        [("PICNIC_BASKET2", ⟨[(399, 5)], [(400, -20)]⟩),
          ("CROISSANT", ⟨[(99, 10)], [(101, -10)]⟩),
          ("JAM", ⟨[(49, 10)], [(51, -10)]⟩),
          ("DJEMBE", ⟨[(10, 10)], [(12, -10)]⟩)] = none ∧
      lookupA (basketComposition "PICNIC_BASKET2") "DJEMBE" = some 0 := by
  constructor
  · decide
  · decide

/-- C3 counterexample: the per-tick engine is not a function of the
snapshot and the persisted state alone. With the drawdown flag set and a
full positive P&L window, the probabilistic recovery draw (random.random,
modelled by r) changes both the emitted orders and the persisted state:
r = 0 clears the flag while r = 1/2 keeps it, giving different outputs for
identical snapshot and state. -/
theorem claim3_counterexample :
    processProduct (fun _ => 0) "CROISSANT" ⟨[(999, 5)], [(1001, -5)]⟩
        [("CROISSANT", 0)]
        ⟨[1000, 1000], some (1/100), some 1000, some 1000, 0, "normal",
          [1, 1, 1, 1, 1, 1, 1, 1], [0], true, 0, none, 0⟩ 0 ≠
      processProduct (fun _ => 0) "CROISSANT" ⟨[(999, 5)], [(1001, -5)]⟩
        [("CROISSANT", 0)]
        ⟨[1000, 1000], some (1/100), some 1000, some 1000, 0, "normal",
          [1, 1, 1, 1, 1, 1, 1, 1], [0], true, 0, none, 0⟩ (1/2) := by
  decide

/-- C5 counterexample: with the drawdown flag set, a full window and
cumulative P&L 16 > 0, a draw of 9/10 leaves the flag set — positive
cumulative P&L does not clear the flag immediately or deterministically.
Likewise with the counter at 30 (far past the tick bound 10) a draw of
17/20 leaves the flag set — no deterministic exit at a maximum tick count
exists, the recovery chance being capped at 0.8. -/
theorem claim5_counterexample :
    ((detectDrawdown "CROISSANT"
          ⟨[1000, 1000], some (1/100), some 1000, some 1000, 0, "normal",
            [2, 2, 2, 2, 2, 2, 2, 2], [0], true, 0, none, 0⟩ 0 1000 (9/10)).1 = true ∧
        0 < ([2, 2, 2, 2, 2, 2, 2, 2] : List ℚ).sum) ∧
      (detectDrawdown "CROISSANT"
          ⟨[1000, 1000], some (1/100), some 1000, some 1000, 0, "normal",
            [2, 2, 2, 2, 2, 2, 2, 2], [0], true, 30, none, 0⟩ 0 1000 (17/20)).1 = true := by
  constructor
  · constructor
    · decide
    · decide
  · decide

/-- C7 counterexample: in Round_2/Trader_2 a trending regime switch is
accepted at the bare detection trigger. With stored regime "normal",
history [100, 99, 100, 101, 102] (exactly 3 consecutive up-moves — the
detection threshold itself, not the 4 a stronger secondary threshold would
demand) the stored label flips to "trending": no strictly stronger
secondary threshold guards trending switches. -/
theorem claim7_counterexample :
    (detectMarketRegime
          ⟨[100, 99, 100, 101, 102], some (1/100), none, none, 0, "normal",
            [], [], false, 0, none, 0⟩ 102).1 = "trending" ∧
      (detectMarketRegime
          ⟨[100, 99, 100, 101, 102], some (1/100), none, none, 0, "normal",
            [], [], false, 0, none, 0⟩ 102).2.regime = "trending" ∧
      consecMoves (takeLast 8 [100, 99, 100, 101, 102]) = (3, 0) := by
  refine ⟨by decide, by decide, by decide⟩

/-- C6 counterexample: after the five mid prices 1000, 1000, 1000, 1000,
20000 (all inside the rolling window) the signal engine's fair value is
85919/125 = 687.352, strictly below every price in the window: the trend
adjustment pushes the fair value outside the window's min/max range. -/
theorem claim6_counterexample :
    (signalRun defaultParams ProdState.init [1000, 1000, 1000, 1000, 20000]).2.priceHistory
        = [1000, 1000, 1000, 1000, 20000] ∧
      (signalRun defaultParams ProdState.init [1000, 1000, 1000, 1000, 20000]).1 =
        85919/125 ∧
      (85919/125 : ℚ) < 1000 := by
  refine ⟨by decide, by decide, by decide⟩

/-- C1 counterexample: the joint per-instrument order set can breach the
position limit in the worst-case fill. Starting from a fresh state, after
a first tick at mid 10002 and position 0, the second tick (position −240,
best bid 9984, an ask of 240 lots at 9985) makes the engine emit a take
buy of 240 and quotes of +40/−40; if only the sell quote fills, the
position would reach −240 − 40 = −280 < −250, below −limit for CROISSANT.
The last two conjuncts record that the post-take position is 0 on both
ticks, so the spread computation only evaluates the math.log model at
argument 1 (where log is exactly 0) and the run is faithful for any model
of math.log. -/
theorem claim1_counterexample :
    sumNegAbs (processProduct (fun _ => 0) "CROISSANT" ⟨[(9984, 5)], [(9985, -240)]⟩
        [("CROISSANT", -240)]
        (processProduct (fun _ => 0) "CROISSANT" ⟨[(10000, 5)], [(10004, -5)]⟩
          [("CROISSANT", 0)] ProdState.init 0).2 0).1 = 40 ∧
      ¬ (-(positionLimit "CROISSANT") ≤
          -240 - sumNegAbs (processProduct (fun _ => 0) "CROISSANT"
            ⟨[(9984, 5)], [(9985, -240)]⟩ [("CROISSANT", -240)]
            (processProduct (fun _ => 0) "CROISSANT" ⟨[(10000, 5)], [(10004, -5)]⟩
              [("CROISSANT", 0)] ProdState.init 0).2 0).1) ∧
      (processProduct (fun _ => 0) "CROISSANT" ⟨[(10000, 5)], [(10004, -5)]⟩
          [("CROISSANT", 0)] ProdState.init 0).2.currentPosition = 0 ∧
      (processProduct (fun _ => 0) "CROISSANT" ⟨[(9984, 5)], [(9985, -240)]⟩
          [("CROISSANT", -240)]
          (processProduct (fun _ => 0) "CROISSANT" ⟨[(10000, 5)], [(10004, -5)]⟩
            [("CROISSANT", 0)] ProdState.init 0).2 0).2.currentPosition = 0 := by
  refine ⟨by decide, by decide, by decide, by decide⟩

/-- C4 counterexample: the order-taking bound "cumulative buys is at most
effective_limit − position" fails when the position exceeds the effective
limit (here PICNIC_BASKET1 in drawdown: effective limit 36, position 50):
the module proposes no buys at all, yet 0 is not at most 36 − 50. -/
theorem claim4_counterexample :
    effectiveLimit "PICNIC_BASKET1" (getProductParams "PICNIC_BASKET1") true = 36 ∧
      (takeBestOrders "PICNIC_BASKET1" 100 ⟨[], []⟩ 50
          (getProductParams "PICNIC_BASKET1") "normal" (1/100) true).2.1 = 0 ∧
      ¬ ((takeBestOrders "PICNIC_BASKET1" 100 ⟨[], []⟩ 50
          (getProductParams "PICNIC_BASKET1") "normal" (1/100) true).2.1 ≤
        effectiveLimit "PICNIC_BASKET1" (getProductParams "PICNIC_BASKET1") true - 50) := by
  refine ⟨by decide, by decide, by decide⟩

/-- C3 amended: the engine is deterministic given the random draw, and the
draw is consulted only in the drawdown-recovery branch: whenever the
stored drawdown flag of the processed product is clear, the per-product
pass returns identical orders and identical persisted state for any two
draws, for every snapshot and state. -/
theorem claim3_deterministic_given_flag_clear (lnModel : ℚ → ℚ) (product : String)
    (depth : Depth) (positions : List (String × ℤ)) (s : ProdState) (r r' : ℚ)
    (h : s.inDrawdown = false) :
    processProduct lnModel product depth positions s r =
      processProduct lnModel product depth positions s r' := by
  unfold processProduct
  cases hl : lookupA positions product with
  | none => rfl
  | some position =>
      simp only []
      split
      · rfl
      · split
        · rfl
        · rw [detectDrawdown_rand_free _ _ _ _ r r'
            (by rw [regime_inDrawdown, calcVol_inDrawdown]; exact h)]

theorem claim3_witness :
    ProdState.init.inDrawdown = false ∧
      processProduct (fun _ => 0) "CROISSANT" ⟨[(999, 5)], [(1001, -5)]⟩
          [("CROISSANT", 0)] ProdState.init 0 =
        processProduct (fun _ => 0) "CROISSANT" ⟨[(999, 5)], [(1001, -5)]⟩
          [("CROISSANT", 0)] ProdState.init (1/2) :=
  ⟨rfl,
    claim3_deterministic_given_flag_clear (fun _ => 0) "CROISSANT"
      ⟨[(999, 5)], [(1001, -5)]⟩ [("CROISSANT", 0)] ProdState.init 0 (1/2) rfl⟩

/-- C5 amended: while the flag is set, the window is full and the entry
threshold is not re-triggered, the drawdown flag is cleared in a call
exactly when the exit gate opens (cumulative windowed P&L positive, or the
incremented counter at least 10) and the random draw falls below
min(0.3 · (1 + counter/10), 0.8): clearing is always probabilistic, with
the recovery chance growing in the counter and capped at 0.8 — never
deterministic, not even on positive P&L or after any number of ticks. -/
theorem claim5_probabilistic_recovery (product : String) (s : ProdState)
    (position : ℤ) (mid r : ℚ)
    (hflag : s.inDrawdown = true)
    (hlen : 8 ≤ (updatedPnl s position mid).length)
    (hnotrig : ¬ ((updatedPnl s position mid).sum <
        -(0.04 : ℚ) * ((positionLimit product : ℤ) : ℚ))) :
    (detectDrawdown product s position mid r).1 = false ↔
      ((0 < (updatedPnl s position mid).sum ∨ 10 ≤ s.drawdownCounter + 1) ∧
        r < min ((0.3 : ℚ) * (1 + ((s.drawdownCounter + 1 : ℤ) : ℚ) / 10)) 0.8) := by
  unfold detectDrawdown drawdownFlagStep
  simp only [if_pos hlen, if_neg hnotrig, hflag, if_true]
  split_ifs with hcond hr
  · exact iff_of_true rfl ⟨hcond, hr⟩
  · exact iff_of_false (by simp) (fun hx => hr hx.2)
  · exact iff_of_false (by simp) (fun hx => hcond hx.1)

theorem claim5_witness :
    (⟨[1000, 1000], some (1/100), some 1000, some 1000, 0, "normal",
        [2, 2, 2, 2, 2, 2, 2, 2], [0], true, 0, none, 0⟩ : ProdState).inDrawdown = true ∧
      8 ≤ (updatedPnl
        ⟨[1000, 1000], some (1/100), some 1000, some 1000, 0, "normal",
          [2, 2, 2, 2, 2, 2, 2, 2], [0], true, 0, none, 0⟩ 0 1000).length ∧
      ((detectDrawdown "CROISSANT"
          ⟨[1000, 1000], some (1/100), some 1000, some 1000, 0, "normal",
            [2, 2, 2, 2, 2, 2, 2, 2], [0], true, 0, none, 0⟩ 0 1000 0).1 = false ↔
        ((0 < (updatedPnl
            ⟨[1000, 1000], some (1/100), some 1000, some 1000, 0, "normal",
              [2, 2, 2, 2, 2, 2, 2, 2], [0], true, 0, none, 0⟩ 0 1000).sum ∨
            10 ≤ ((⟨[1000, 1000], some (1/100), some 1000, some 1000, 0, "normal",
              [2, 2, 2, 2, 2, 2, 2, 2], [0], true, 0, none, 0⟩ : ProdState).drawdownCounter + 1)) ∧
          (0 : ℚ) < min ((0.3 : ℚ) * (1 + (((⟨[1000, 1000], some (1/100), some 1000, some 1000,
            0, "normal", [2, 2, 2, 2, 2, 2, 2, 2], [0], true, 0, none,
            0⟩ : ProdState).drawdownCounter + 1 : ℤ) : ℚ) / 10)) 0.8)) :=
  ⟨rfl, by decide,
    claim5_probabilistic_recovery "CROISSANT"
      ⟨[1000, 1000], some (1/100), some 1000, some 1000, 0, "normal",
        [2, 2, 2, 2, 2, 2, 2, 2], [0], true, 0, none, 0⟩ 0 1000 0 rfl
      (by decide) (by decide)⟩

/-- C7 amended: once at least 5 samples exist, the stored regime label can
change in a call of detect_market_regime only if the newly accepted
regime's secondary trigger fires. In Round_1/Trader_16 every secondary
trigger is strictly stronger than the detection threshold (volatile 0.05
vs 0.03, trending 4 vs 3 consecutive moves, mean-reverting deviation 0.03
vs 0.02); in Round_2/Trader_2 the volatile (0.035 vs 0.025) and
mean-reverting (0.025 vs 0.015) triggers are strictly stronger — so a
volatility reading at most 0.035 never switches the Round-2 stored label
to volatile — but the Round-2 trending trigger (3 consecutive moves)
equals the bare detection threshold: the counterexample shows the label
flipping at exactly 3 consecutive moves. -/
theorem claim7_switch_needs_secondary_trigger :
    (∀ (s : ProdState) (price : ℚ), ¬ s.priceHistory.length < 5 →
      (detectMarketRegime s price).2.regime ≠ s.regime →
        ((detectMarketRegime s price).1 = "volatile" ∧
            (0.035 : ℚ) < s.volatility.getD 0.01) ∨
          ((detectMarketRegime s price).1 = "trending" ∧
            (3 ≤ (consecMoves (takeLast 8 s.priceHistory)).1 ∨
              3 ≤ (consecMoves (takeLast 8 s.priceHistory)).2)) ∨
          ((detectMarketRegime s price).1 = "mean_reverting" ∧
            (0.025 : ℚ) <
              |price - (takeLast 8 s.priceHistory).sum /
                  ((takeLast 8 s.priceHistory).length : ℚ)| /
                ((takeLast 8 s.priceHistory).sum /
                  ((takeLast 8 s.priceHistory).length : ℚ)))) ∧
      (∀ (s : ProdState) (price : ℚ), ¬ s.priceHistory.length < 5 →
        (TraderR1.detectMarketRegime s price).2.regime ≠ s.regime →
          ((TraderR1.detectMarketRegime s price).1 = "volatile" ∧
              (0.05 : ℚ) < s.volatility.getD 0.01) ∨
            ((TraderR1.detectMarketRegime s price).1 = "trending" ∧
              (4 ≤ (consecMoves (takeLast 5 s.priceHistory)).1 ∨
                4 ≤ (consecMoves (takeLast 5 s.priceHistory)).2)) ∨
            ((TraderR1.detectMarketRegime s price).1 = "mean_reverting" ∧
              (0.03 : ℚ) <
                |price - (takeLast 5 s.priceHistory).sum /
                    ((takeLast 5 s.priceHistory).length : ℚ)| /
                  ((takeLast 5 s.priceHistory).sum /
                    ((takeLast 5 s.priceHistory).length : ℚ)))) := by
  constructor
  · intro s price hlen hch
    revert hch
    simp only [detectMarketRegime]
    rw [if_neg hlen]
    repeat' split
    all_goals intro hch
    all_goals
      first
        | exact absurd rfl hch
        | assumption
  · intro s price hlen hch
    revert hch
    simp only [TraderR1.detectMarketRegime]
    rw [if_neg hlen]
    repeat' split
    all_goals intro hch
    all_goals
      first
        | exact absurd rfl hch
        | assumption

theorem claim7_trigger_witness :
    ((¬ ([100, 99, 100, 101, 102] : List ℚ).length < 5) ∧
      (detectMarketRegime
          ⟨[100, 99, 100, 101, 102], some (1/100), none, none, 0, "normal",
            [], [], false, 0, none, 0⟩ 102).2.regime ≠ "normal" ∧
      (((detectMarketRegime
            ⟨[100, 99, 100, 101, 102], some (1/100), none, none, 0, "normal",
              [], [], false, 0, none, 0⟩ 102).1 = "volatile" ∧
          (0.035 : ℚ) < (1/100 : ℚ)) ∨
        ((detectMarketRegime
            ⟨[100, 99, 100, 101, 102], some (1/100), none, none, 0, "normal",
              [], [], false, 0, none, 0⟩ 102).1 = "trending" ∧
          (3 ≤ (consecMoves (takeLast 8 ([100, 99, 100, 101, 102] : List ℚ))).1 ∨
            3 ≤ (consecMoves (takeLast 8 ([100, 99, 100, 101, 102] : List ℚ))).2)) ∨
        ((detectMarketRegime
            ⟨[100, 99, 100, 101, 102], some (1/100), none, none, 0, "normal",
              [], [], false, 0, none, 0⟩ 102).1 = "mean_reverting" ∧
          (0.025 : ℚ) <
            |102 - (takeLast 8 ([100, 99, 100, 101, 102] : List ℚ)).sum /
                ((takeLast 8 ([100, 99, 100, 101, 102] : List ℚ)).length : ℚ)| /
              ((takeLast 8 ([100, 99, 100, 101, 102] : List ℚ)).sum /
                ((takeLast 8 ([100, 99, 100, 101, 102] : List ℚ)).length : ℚ))))) ∧
    ((¬ ([100, 101, 102, 103, 104] : List ℚ).length < 5) ∧
      (TraderR1.detectMarketRegime
          ⟨[100, 101, 102, 103, 104], some (1/100), none, none, 0, "normal",
            [], [], false, 0, none, 0⟩ 105).2.regime ≠ "normal" ∧
      (((TraderR1.detectMarketRegime
            ⟨[100, 101, 102, 103, 104], some (1/100), none, none, 0, "normal",
              [], [], false, 0, none, 0⟩ 105).1 = "volatile" ∧
          (0.05 : ℚ) < (1/100 : ℚ)) ∨
        ((TraderR1.detectMarketRegime
            ⟨[100, 101, 102, 103, 104], some (1/100), none, none, 0, "normal",
              [], [], false, 0, none, 0⟩ 105).1 = "trending" ∧
          (4 ≤ (consecMoves (takeLast 5 ([100, 101, 102, 103, 104] : List ℚ))).1 ∨
            4 ≤ (consecMoves (takeLast 5 ([100, 101, 102, 103, 104] : List ℚ))).2)) ∨
        ((TraderR1.detectMarketRegime
            ⟨[100, 101, 102, 103, 104], some (1/100), none, none, 0, "normal",
              [], [], false, 0, none, 0⟩ 105).1 = "mean_reverting" ∧
          (0.03 : ℚ) <
            |105 - (takeLast 5 ([100, 101, 102, 103, 104] : List ℚ)).sum /
                ((takeLast 5 ([100, 101, 102, 103, 104] : List ℚ)).length : ℚ)| /
              ((takeLast 5 ([100, 101, 102, 103, 104] : List ℚ)).sum /
                ((takeLast 5 ([100, 101, 102, 103, 104] : List ℚ)).length : ℚ))))) :=
  ⟨⟨by decide, by decide,
      claim7_switch_needs_secondary_trigger.1
        ⟨[100, 99, 100, 101, 102], some (1/100), none, none, 0, "normal",
          [], [], false, 0, none, 0⟩ 102 (by decide) (by decide)⟩,
    ⟨by decide, by decide,
      claim7_switch_needs_secondary_trigger.2
        ⟨[100, 101, 102, 103, 104], some (1/100), none, none, 0, "normal",
          [], [], false, 0, none, 0⟩ 105 (by decide) (by decide)⟩⟩

theorem calcVol_emaPrice (s : ProdState) (mid : ℚ) :
    (calculateVolatility s mid).1.emaPrice = s.emaPrice := by
  simp only [calculateVolatility]
  repeat' split
  all_goals rfl

theorem regime_emaPrice (s : ProdState) (p : ℚ) :
    (detectMarketRegime s p).2.emaPrice = s.emaPrice := by
  simp only [detectMarketRegime]
  repeat' split
  all_goals rfl

theorem calcTrend_emaPrice (s : ProdState) (mid : ℚ) :
    (calculateTrend s mid).1.emaPrice = s.emaPrice := rfl

theorem adjustedAlpha_pos (alpha : ℚ) (regime : String) (h : 0 < alpha) :
    0 < adjustedAlpha alpha regime := by
  unfold adjustedAlpha
  split_ifs
  · exact lt_min (by norm_num) (by linarith)
  · exact lt_min (by norm_num) (by linarith)
  · exact lt_max_of_lt_left (by norm_num)
  · exact h

theorem adjustedAlpha_lt_one (alpha : ℚ) (regime : String) (h0 : 0 < alpha)
    (h1 : alpha < 1) : adjustedAlpha alpha regime < 1 := by
  unfold adjustedAlpha
  split_ifs
  · exact lt_of_le_of_lt (min_le_left _ _) (by norm_num)
  · exact lt_of_le_of_lt (min_le_left _ _) (by norm_num)
  · exact max_lt (by norm_num) (by linarith)
  · exact h1

theorem signalStep_ema (params : Params) (s : ProdState) (mid L B : ℚ)
    (ha : 0 < params.alpha) (ha1 : params.alpha < 1)
    (hmL : L ≤ mid) (hmB : mid ≤ B)
    (hs : s.emaPrice = none ∨ ∃ e, s.emaPrice = some e ∧ L ≤ e ∧ e ≤ B) :
    ∃ e, (signalStep params s mid).2.emaPrice = some e ∧ L ≤ e ∧ e ≤ B := by
  unfold signalStep
  have hpres : (detectMarketRegime (calculateVolatility s mid).1 mid).2.emaPrice
      = s.emaPrice := by
    rw [regime_emaPrice, calcVol_emaPrice]
  unfold calculateFairValue
  simp only []
  rcases hs with h | ⟨e, he, heL, heB⟩
  · rw [hpres, h]
    exact ⟨mid, rfl, hmL, hmB⟩
  · rw [hpres, he]
    simp only [calcTrend_emaPrice]
    set a := adjustedAlpha params.alpha
      (detectMarketRegime (calculateVolatility s mid).1 mid).1 with hadef
    have hapos : 0 < a := adjustedAlpha_pos _ _ ha
    have halt : a < 1 := adjustedAlpha_lt_one _ _ ha ha1
    refine ⟨a * mid + (1 - a) * e, rfl, ?_, ?_⟩
    · nlinarith
    · nlinarith

theorem signalRun_ema (params : Params) (L B : ℚ)
    (ha : 0 < params.alpha) (ha1 : params.alpha < 1) :
    ∀ (mids : List ℚ) (s : ProdState), mids ≠ [] →
      (∀ m ∈ mids, L ≤ m ∧ m ≤ B) →
      (s.emaPrice = none ∨ ∃ e, s.emaPrice = some e ∧ L ≤ e ∧ e ≤ B) →
      ∃ e, (signalRun params s mids).2.emaPrice = some e ∧ L ≤ e ∧ e ≤ B := by
  intro mids
  induction mids with
  | nil => intro s hne; exact absurd rfl hne
  | cons m rest ih =>
    intro s _ hmem hs
    cases rest with
    | nil =>
        simp only [signalRun]
        exact signalStep_ema params s m L B ha ha1 (hmem m (by simp)).1
          (hmem m (by simp)).2 hs
    | cons m2 rest2 =>
        simp only [signalRun]
        have hstep := signalStep_ema params s m L B ha ha1 (hmem m (by simp)).1
          (hmem m (by simp)).2 hs
        exact ih (signalStep params s m).2 (by simp)
          (fun x hx => hmem x (by simp [hx])) (Or.inr hstep)

/-- C6 amended: the exponential moving average maintained by the signal
engine stays between any lower and upper bound of all the mid prices
observed so far (for the first 20 updates the rolling window holds the
whole history, so this bounds the EMA by the window extremes); the full
fair value — EMA plus the trend adjustment — can leave the window range,
as the counterexample shows. Stated for any product parameters with EMA
weight alpha in (0, 1), after at least 2 updates. -/
theorem claim6_ema_within_bounds (params : Params) (mids : List ℚ) (L B : ℚ)
    (ha : 0 < params.alpha) (ha1 : params.alpha < 1)
    (hlen : 2 ≤ mids.length)
    (hmem : ∀ m ∈ mids, L ≤ m ∧ m ≤ B) :
    ∃ e, (signalRun params ProdState.init mids).2.emaPrice = some e ∧
      L ≤ e ∧ e ≤ B := by
  refine signalRun_ema params L B ha ha1 mids ProdState.init ?_ hmem (Or.inl rfl)
  intro h
  rw [h] at hlen
  simp at hlen

theorem claim6_witness :
    ∃ e, (signalRun defaultParams ProdState.init [1000, 1200]).2.emaPrice = some e ∧
      (1000 : ℚ) ≤ e ∧ e ≤ 1200 :=
  claim6_ema_within_bounds defaultParams [1000, 1200] 1000 1200 (by decide) (by decide)
    (by decide) (by decide)

theorem sumPosQty_cons (o : Order) (l : List Order) :
    sumPosQty (o :: l) = max o.quantity 0 + sumPosQty l := by
  simp [sumPosQty]

theorem sumNegAbs_cons (o : Order) (l : List Order) :
    sumNegAbs (o :: l) = max (-o.quantity) 0 + sumNegAbs l := by
  simp [sumNegAbs]

theorem sumPosQty_append (a b : List Order) :
    sumPosQty (a ++ b) = sumPosQty a + sumPosQty b := by
  simp [sumPosQty]

theorem sumNegAbs_append (a b : List Order) :
    sumNegAbs (a ++ b) = sumNegAbs a + sumNegAbs b := by
  simp [sumNegAbs]

theorem takeBuysLoop_facts (product : String) (fv atw : ℚ) (capacity : ℤ) :
    ∀ (l : List (ℤ × ℤ)) (acc : ℤ),
      acc ≤ (takeBuysLoop product fv atw capacity l acc).2 ∧
      (acc ≤ max 0 capacity →
        (takeBuysLoop product fv atw capacity l acc).2 ≤ max 0 capacity) ∧
      sumPosQty (takeBuysLoop product fv atw capacity l acc).1 =
        (takeBuysLoop product fv atw capacity l acc).2 - acc ∧
      sumNegAbs (takeBuysLoop product fv atw capacity l acc).1 = 0 := by
  intro l
  induction l with
  | nil => intro acc; simp [takeBuysLoop, sumPosQty, sumNegAbs]
  | cons pa rest ih =>
    intro acc
    obtain ⟨price, amt⟩ := pa
    simp only [takeBuysLoop]
    split_ifs with hp hq hbreak
    · have h1 : min |amt| (capacity - acc) ≤ capacity - acc := min_le_right _ _
      refine ⟨by omega, fun hacc => by omega, ?_, ?_⟩
      · simp only [sumPosQty_cons, sumPosQty]
        simp
        omega
      · simp only [sumNegAbs_cons, sumNegAbs]
        simp
        omega
    · have h1 : min |amt| (capacity - acc) ≤ capacity - acc := min_le_right _ _
      have hrec := ih (acc + min |amt| (capacity - acc))
      refine ⟨by omega, fun hacc => hrec.2.1 (by omega), ?_, ?_⟩
      · simp only [sumPosQty_cons]
        rw [hrec.2.2.1]
        omega
      · simp only [sumNegAbs_cons]
        rw [hrec.2.2.2]
        omega
    · exact ih acc
    · simp [sumPosQty, sumNegAbs]

theorem takeSellsLoop_facts (product : String) (fv atw : ℚ) (capacity : ℤ) :
    ∀ (l : List (ℤ × ℤ)) (acc : ℤ),
      acc ≤ (takeSellsLoop product fv atw capacity l acc).2 ∧
      (acc ≤ max 0 capacity →
        (takeSellsLoop product fv atw capacity l acc).2 ≤ max 0 capacity) ∧
      sumNegAbs (takeSellsLoop product fv atw capacity l acc).1 =
        (takeSellsLoop product fv atw capacity l acc).2 - acc ∧
      sumPosQty (takeSellsLoop product fv atw capacity l acc).1 = 0 := by
  intro l
  induction l with
  | nil => intro acc; simp [takeSellsLoop, sumPosQty, sumNegAbs]
  | cons pa rest ih =>
    intro acc
    obtain ⟨price, amt⟩ := pa
    simp only [takeSellsLoop]
    split_ifs with hp hq hbreak
    · have h1 : min amt (capacity - acc) ≤ capacity - acc := min_le_right _ _
      refine ⟨by omega, fun hacc => by omega, ?_, ?_⟩
      · simp only [sumNegAbs_cons, sumNegAbs]
        simp
        omega
      · simp only [sumPosQty_cons, sumPosQty]
        simp
        omega
    · have h1 : min amt (capacity - acc) ≤ capacity - acc := min_le_right _ _
      have hrec := ih (acc + min amt (capacity - acc))
      refine ⟨by omega, fun hacc => hrec.2.1 (by omega), ?_, ?_⟩
      · simp only [sumNegAbs_cons]
        rw [hrec.2.2.1]
        omega
      · simp only [sumPosQty_cons]
        rw [hrec.2.2.2]
        omega
    · exact ih acc
    · simp [sumPosQty, sumNegAbs]

/-- C4 amended: for any input book and position whose magnitude does not
exceed the effective limit, the order-taking module's cumulative buy
volume is at most effective_limit − position and its cumulative sell
volume at most effective_limit + position, so the post-take position stays
within [−effective_limit, effective_limit]. (When |position| already
exceeds the effective limit — reachable when drawdown shrinks the limit
under an existing position — the claimed bound fails even with no orders,
see the counterexample.) -/
theorem claim4_take_respects_headroom (product : String) (fv : ℚ) (depth : Depth)
    (position : ℤ) (params : Params) (regime : String) (volatility : ℚ)
    (inDrawdown : Bool)
    (hlo : -(effectiveLimit product params inDrawdown) ≤ position)
    (hhi : position ≤ effectiveLimit product params inDrawdown) :
    (takeBestOrders product fv depth position params regime volatility inDrawdown).2.1 ≤
        effectiveLimit product params inDrawdown - position ∧
      (takeBestOrders product fv depth position params regime volatility inDrawdown).2.2 ≤
        effectiveLimit product params inDrawdown + position ∧
      -(effectiveLimit product params inDrawdown) ≤
        position +
          (takeBestOrders product fv depth position params regime volatility inDrawdown).2.1 -
          (takeBestOrders product fv depth position params regime volatility inDrawdown).2.2 ∧
      position +
          (takeBestOrders product fv depth position params regime volatility inDrawdown).2.1 -
          (takeBestOrders product fv depth position params regime volatility inDrawdown).2.2 ≤
        effectiveLimit product params inDrawdown := by
  unfold takeBestOrders
  simp only []
  set eff := effectiveLimit product params inDrawdown with heff
  split_ifs with h1 h2 h3
  · have hb := takeBuysLoop_facts product fv
      (adjustedTakeWidth params.takeWidth regime volatility) (eff - position)
      (sortPairsAsc depth.sells) 0
    have hs := takeSellsLoop_facts product fv
      (adjustedTakeWidth params.takeWidth regime volatility) (eff + position)
      (sortPairsDesc depth.buys) 0
    have hb2 := hb.2.1 (by omega)
    have hs2 := hs.2.1 (by omega)
    refine ⟨by omega, by omega, by omega, by omega⟩
  · have hb := takeBuysLoop_facts product fv
      (adjustedTakeWidth params.takeWidth regime volatility) (eff - position)
      (sortPairsAsc depth.sells) 0
    have hb2 := hb.2.1 (by omega)
    refine ⟨by omega, by omega, by omega, by omega⟩
  · have hs := takeSellsLoop_facts product fv
      (adjustedTakeWidth params.takeWidth regime volatility) (eff + position)
      (sortPairsDesc depth.buys) 0
    have hs2 := hs.2.1 (by omega)
    refine ⟨by omega, by omega, by omega, by omega⟩
  · refine ⟨by omega, by omega, by omega, by omega⟩

theorem claim4_witness :
    (-(effectiveLimit "CROISSANT" (getProductParams "CROISSANT") false) ≤ (0 : ℤ)) ∧
      (takeBestOrders "CROISSANT" 100 ⟨[(99, 5)], [(101, -5)]⟩ 0
          (getProductParams "CROISSANT") "normal" (1/100) false).2.1 ≤
        effectiveLimit "CROISSANT" (getProductParams "CROISSANT") false - 0 :=
  ⟨by decide,
    (claim4_take_respects_headroom "CROISSANT" 100 ⟨[(99, 5)], [(101, -5)]⟩ 0
      (getProductParams "CROISSANT") "normal" (1/100) false (by decide) (by decide)).1⟩

theorem mmEmitBound (product : String) (bp ap rb rs c1 c2 : ℤ) :
    sumPosQty ((if 0 < min rb c1 then [⟨product, bp, min rb c1⟩] else []) ++
        (if 0 < min rs c2 then [⟨product, ap, -(min rs c2)⟩] else [])) ≤ max 0 rb ∧
      sumNegAbs ((if 0 < min rb c1 then [⟨product, bp, min rb c1⟩] else []) ++
        (if 0 < min rs c2 then [⟨product, ap, -(min rs c2)⟩] else [])) ≤ max 0 rs := by
  split_ifs <;> simp [sumPosQty, sumNegAbs] <;> omega

/-- C1 amended: each module separately respects the effective-limit
headroom — the take pass's summed buy quantities are at most
max(0, effective_limit − position) and its summed sell magnitudes at most
max(0, effective_limit + position), and likewise for the market-making
pass measured from its own (post-take) position argument — but the joint
order set of one instrument's tick is not constrained as a whole: take and
quote orders together can breach the position limit in the worst-case
fill, as the counterexample shows (and basket-arbitrage legs are sized
from pre-tick positions, independently of both passes). -/
theorem claim1_per_module_limits :
    (∀ (product : String) (fv : ℚ) (depth : Depth) (position : ℤ) (params : Params)
      (regime : String) (volatility : ℚ) (inDrawdown : Bool),
      sumPosQty (takeBestOrders product fv depth position params regime volatility
          inDrawdown).1 ≤
        max 0 (effectiveLimit product params inDrawdown - position) ∧
      sumNegAbs (takeBestOrders product fv depth position params regime volatility
          inDrawdown).1 ≤
        max 0 (effectiveLimit product params inDrawdown + position)) ∧
    (∀ (product : String) (params : Params) (fv spread : ℚ) (position : ℤ)
      (s : ProdState) (regime : String) (inDrawdown : Bool),
      sumPosQty (makeMarket product params fv spread position s regime inDrawdown) ≤
        max 0 (effectiveLimit product params inDrawdown - position) ∧
      sumNegAbs (makeMarket product params fv spread position s regime inDrawdown) ≤
        max 0 (effectiveLimit product params inDrawdown + position)) := by
  constructor
  · intro product fv depth position params regime volatility inDrawdown
    unfold takeBestOrders
    simp only []
    set eff := effectiveLimit product params inDrawdown with heff
    split_ifs with h1 h2 h3
    · have hb := takeBuysLoop_facts product fv
        (adjustedTakeWidth params.takeWidth regime volatility) (eff - position)
        (sortPairsAsc depth.sells) 0
      have hs := takeSellsLoop_facts product fv
        (adjustedTakeWidth params.takeWidth regime volatility) (eff + position)
        (sortPairsDesc depth.buys) 0
      have hb2 := hb.2.1 (by omega)
      have hs2 := hs.2.1 (by omega)
      rw [sumPosQty_append, sumNegAbs_append]
      constructor
      · rw [hb.2.2.1, hs.2.2.2]; omega
      · rw [hb.2.2.2, hs.2.2.1]; omega
    · have hb := takeBuysLoop_facts product fv
        (adjustedTakeWidth params.takeWidth regime volatility) (eff - position)
        (sortPairsAsc depth.sells) 0
      have hb2 := hb.2.1 (by omega)
      rw [sumPosQty_append, sumNegAbs_append]
      constructor
      · rw [hb.2.2.1]; simp [sumPosQty]; try omega
      · rw [hb.2.2.2]; simp [sumNegAbs]; try omega
    · have hs := takeSellsLoop_facts product fv
        (adjustedTakeWidth params.takeWidth regime volatility) (eff + position)
        (sortPairsDesc depth.buys) 0
      have hs2 := hs.2.1 (by omega)
      rw [sumPosQty_append, sumNegAbs_append]
      constructor
      · rw [hs.2.2.2]; simp [sumPosQty]; try omega
      · rw [hs.2.2.1]; simp [sumNegAbs]; try omega
    · simp [sumPosQty, sumNegAbs]
  · intro product params fv spread position s regime inDrawdown
    exact mmEmitBound product _ _ _ _ _ _

theorem widenToMinSpread_bid_lt_ask (ms : ℚ) (bid ask : ℤ) (h : 1 ≤ ms) :
    (widenToMinSpread ms bid ask).1 < (widenToMinSpread ms bid ask).2 := by
  unfold widenToMinSpread
  split_ifs with hlt
  · simp only []
    have h1 : ((⌊(bid : ℚ) - (ms - ((ask : ℚ) - (bid : ℚ))) / 2⌋ : ℤ) : ℚ) ≤
        (bid : ℚ) - (ms - ((ask : ℚ) - (bid : ℚ))) / 2 := Int.floor_le _
    have h2 : (ask : ℚ) + (ms - ((ask : ℚ) - (bid : ℚ))) / 2 ≤
        ((⌈(ask : ℚ) + (ms - ((ask : ℚ) - (bid : ℚ))) / 2⌉ : ℤ) : ℚ) := Int.le_ceil _
    have h3 : (1 : ℚ) ≤
        ((⌈(ask : ℚ) + (ms - ((ask : ℚ) - (bid : ℚ))) / 2⌉ : ℤ) : ℚ) -
          ((⌊(bid : ℚ) - (ms - ((ask : ℚ) - (bid : ℚ))) / 2⌋ : ℤ) : ℚ) := by linarith
    have h4 : (1 : ℤ) ≤
        ⌈(ask : ℚ) + (ms - ((ask : ℚ) - (bid : ℚ))) / 2⌉ -
          ⌊(bid : ℚ) - (ms - ((ask : ℚ) - (bid : ℚ))) / 2⌋ := by exact_mod_cast h3
    omega
  · push_neg at hlt
    have h5 : (1 : ℚ) ≤ (ask : ℚ) - (bid : ℚ) := le_trans h hlt
    have h6 : (1 : ℤ) ≤ ask - bid := by exact_mod_cast h5
    omega

/-- C8: both make_market implementations always quote a strictly larger
ask than bid when the configured min_spread is at least 1: the symmetric
widening block turns any candidate pair with ask − bid < min_spread into
one with ask − bid ≥ min_spread ≥ 1. For the Round-1 variant the
effective limit is assumed positive, which holds for every configured
product limit (the source divides by it without a guard). -/
theorem claim8_ask_strictly_above_bid :
    (∀ (ms fv spread : ℚ) (position eff : ℤ) (trend : ℚ), 1 ≤ ms →
      (mmPrices ms fv spread position eff trend).1 <
        (mmPrices ms fv spread position eff trend).2) ∧
    (∀ (ms fv half ae : ℚ) (position eff : ℤ), 1 ≤ ms → 0 < eff →
      (TraderR1.mmPrices ms fv half ae position eff).1 <
        (TraderR1.mmPrices ms fv half ae position eff).2) := by
  constructor
  · intro ms fv spread position eff trend h
    unfold mmPrices
    exact widenToMinSpread_bid_lt_ask ms _ _ h
  · intro ms fv half ae position eff h _
    unfold TraderR1.mmPrices
    exact widenToMinSpread_bid_lt_ask ms _ _ h

theorem claim8_witness :
    (mmPrices 1 100 2 0 50 0).1 < (mmPrices 1 100 2 0 50 0).2 ∧
      (TraderR1.mmPrices 1 100 1 (3/10) 0 50).1 <
        (TraderR1.mmPrices 1 100 1 (3/10) 0 50).2 :=
  ⟨claim8_ask_strictly_above_bid.1 1 100 2 0 50 0 (by norm_num),
    claim8_ask_strictly_above_bid.2 1 100 1 (3/10) 0 50 (by norm_num) (by norm_num)⟩

theorem natSqrtB_foldl_sq_le (n : ℕ) :
    ∀ (l : List ℕ) (a : ℕ), a * a ≤ n →
      (l.foldl (fun acc k => if k * k ≤ n then max acc k else acc) a) *
        (l.foldl (fun acc k => if k * k ≤ n then max acc k else acc) a) ≤ n := by
  intro l
  induction l with
  | nil => intro a h; simpa using h
  | cons k rest ih =>
    intro a h
    simp only [List.foldl_cons]
    split_ifs with hk
    · apply ih
      rcases max_cases a k with ⟨he, _⟩ | ⟨he, _⟩ <;> rw [he]
      · exact h
      · exact hk
    · exact ih a h

theorem natSqrtB_foldl_ge (n : ℕ) :
    ∀ (l : List ℕ) (a : ℕ),
      a ≤ l.foldl (fun acc k => if k * k ≤ n then max acc k else acc) a := by
  intro l
  induction l with
  | nil => intro a; simp
  | cons k rest ih =>
    intro a
    simp only [List.foldl_cons]
    split_ifs with hk
    · exact le_trans (le_max_left a k) (ih _)
    · exact ih a

theorem natSqrtB_foldl_mem_le (n : ℕ) :
    ∀ (l : List ℕ) (a k : ℕ), k ∈ l → k * k ≤ n →
      k ≤ l.foldl (fun acc kk => if kk * kk ≤ n then max acc kk else acc) a := by
  intro l
  induction l with
  | nil => intro a k hk; simp at hk
  | cons kk rest ih =>
    intro a k hk hsq
    simp only [List.foldl_cons]
    rcases List.mem_cons.mp hk with rfl | hmem
    · rw [if_pos hsq]
      exact le_trans (le_max_right a k) (natSqrtB_foldl_ge n rest _)
    · split_ifs with h
      · exact ih _ k hmem hsq
      · exact ih a k hmem hsq

/-- The bounded-search integer square root used in sampleStdev agrees with
Nat.sqrt everywhere. -/
theorem natSqrtB_eq_sqrt (n : ℕ) : natSqrtB n = Nat.sqrt n := by
  unfold natSqrtB
  apply le_antisymm
  · exact Nat.le_sqrt.mpr (natSqrtB_foldl_sq_le n (List.range (n + 2)) 0 (by simp))
  · apply natSqrtB_foldl_mem_le n (List.range (n + 2)) 0 (Nat.sqrt n) ?_ (Nat.sqrt_le n)
    exact List.mem_range.mpr (by have := Nat.sqrt_le_self n; omega)

/-- ratSqrt is exactly Mathlib's rational square root, so in particular it
returns the true square root on every perfect square (ratSqrt_sq below):
the stdev model is exact whenever the sample variance is a rational
square, as in every concrete run of this file. -/
theorem ratSqrt_eq_sqrt (q : ℚ) : ratSqrt q = Rat.sqrt q := by
  simp [ratSqrt, Rat.sqrt, Int.sqrt, natSqrtB_eq_sqrt]

theorem ratSqrt_sq (q : ℚ) : ratSqrt (q * q) = |q| := by
  rw [ratSqrt_eq_sqrt, Rat.sqrt_eq]

end MainTheorems
